import Mathlib

/-! Morse code game (`assign02.c`): embedding and verified properties

The C globals become the fields of one `State` record that every function
receives and returns.  The two `char` arrays are modelled by the C strings
they hold (the characters before the terminator) as `List Char`; `strcmp`
is list equality, `strcat` is append and `x[0] = 0` stores the empty list.
The strings are the ones the code reads as long as each string and its
terminator fit the five bytes of its array (line 21); a required answer of
five marks does not, and the theorems on rounds scored as correct are stated
for answers that fit.  The `int` globals are mathematical integers:
the code only ever adds or subtracts one to them.  `calculate_duration`,
which subtracts two timestamps, is the subtraction of 32-bit `int`.  Each
call of `rand()` is an explicit argument `r`.  The two output channels, the
words written to the LED state machine and the `printf` calls, are logs
inside the state.
-/

namespace Morse

/-! ## Constants and tables -/

/-- Number of alphanumeric characters (`#define MAX_CHARS 36`). -/
def MAX_CHARS : Nat := 36

/-- Longest Morse string of a character (`#define MAX_MORSE_INPUT 5`). -/
def MAX_MORSE_INPUT : Int := 5

/-- Last playable level (`#define MAX_LEVEL 2`). -/
def MAX_LEVEL : Int := 2

/-- Most lives a player can hold (`#define MAX_LIVES 3`). -/
def MAX_LIVES : Int := 3

/-- Table of the characters, in the order of the source. -/
def alphaNumChars : List Char :=
  ['0', '1', '2', '3', '4', '5', '6', '7', '8', '9',
   'A', 'B', 'C', 'D', 'E', 'F', 'G', 'H', 'I', 'J', 'K', 'L', 'M',
   'N', 'O', 'P', 'Q', 'R', 'S', 'T', 'U', 'V', 'W', 'X', 'Y', 'Z']

/-- Table of the Morse strings, entry `i` belongs to `alphaNumChars[i]`. -/
def morseCode : List (List Char) :=
  [['-', '-', '-', '-', '-'], ['.', '-', '-', '-', '-'], ['.', '.', '-', '-', '-'],
   ['.', '.', '.', '-', '-'], ['.', '.', '.', '.', '-'], ['.', '.', '.', '.', '.'],
   ['-', '.', '.', '.', '.'], ['-', '-', '.', '.', '.'], ['-', '-', '-', '.', '.'],
   ['-', '-', '-', '-', '.'],
   ['.', '-'], ['-', '.', '.', '.'], ['-', '.', '-', '.'], ['-', '.', '.'], ['.'],
   ['.', '.', '-', '.'], ['-', '-', '.'], ['.', '.', '.', '.'], ['.', '.'],
   ['.', '-', '-', '-'], ['-', '.', '-'], ['.', '-', '.', '.'], ['-', '-'], ['-', '.'],
   ['-', '-', '-'], ['.', '-', '-', '.'], ['-', '-', '.', '-'], ['.', '-', '.'],
   ['.', '.', '.'], ['-'], ['.', '.', '-'], ['.', '.', '.', '-'], ['.', '-', '-'],
   ['-', '.', '.', '-'], ['-', '.', '-', '-'], ['-', '-', '.', '.']]

/-- The C expression `morseCode[i]`. -/
def code_at (i : Nat) : List Char := morseCode.getD i []

/-- The C expression `alphaNumChars[i]`. -/
def char_at (i : Nat) : Char := alphaNumChars.getD i '?'

/-! ## Output channels -/

/-- One `printf` call (or one run of `printf` calls of fixed text) together
with the values it formats. -/
inductive Print where
  /-- Lines 226 to 243: the instructions and the difficulty prompt. -/
  | instructions
  /-- Lines 266 and 274: the level that was selected. -/
  | level_selected (n : Int)
  /-- Lines 282 and 283: the entry is neither of the two level codes. -/
  | invalid_entry
  /-- Lines 309, 318, 327: the character just appended. -/
  | echo (c : Char)
  /-- Lines 198 and 203: the character to enter, at level 1 with its code. -/
  | target (c : Char) (code : Option (List Char))
  /-- Line 214. -/
  | answer_so_far
  /-- Lines 431 and 434: the attempt and the character it stands for. -/
  | typed (attempt : List Char) (c : Char)
  /-- Lines 439 and 448. -/
  | verdict (correct : Bool)
  /-- Line 454. -/
  | lives_streak (lives streak : Int)
  /-- Lines 339 to 344. -/
  | statistics (tries correct incorrect : Int)
  /-- Lines 370 to 373. -/
  | game_over
  /-- Lines 377 to 380. -/
  | game_won
  /-- Lines 404 to 406. -/
  | level_reached (n : Int)
  deriving DecidableEq, Repr

/-- The global variables of the program and its two output logs. -/
structure State where
  required_answer : List Char
  player_input : List Char
  current_level : Int
  lives : Int
  current_streak : Int
  charsEntered : Int
  correct_ans : Int
  incorrect_ans : Int
  num_tries : Int
  input_start : Bool
  game_is_complete : Bool
  /-- Words handed to `pio_sm_put_blocking`, oldest first. -/
  pixels : List Nat
  /-- The `printf` calls made, oldest first. -/
  console : List Print
  deriving DecidableEq, Repr

/-- The globals as the C runtime initialises them: all zero. -/
def boot : State :=
  { required_answer := [], player_input := [], current_level := 0, lives := 0,
    current_streak := 0, charsEntered := 0, correct_ans := 0, incorrect_ans := 0,
    num_tries := 0, input_start := false, game_is_complete := false,
    pixels := [], console := [] }

/-- Append one `printf` call to the console log. -/
def printf (p : Print) (s : State) : State :=
  { s with console := s.console ++ [p] }

/-! ## LED -/

/-- The word `pixel_grb << 8u` on 32 bits goes to the LED state machine. -/
def put_pixel (pixel_grb : Nat) (s : State) : State :=
  { s with pixels := s.pixels ++ [(pixel_grb <<< 8) % 2 ^ 32] }

/-- Packs three 8-bit intensities into one word. -/
def urgb_u32 (red green blue : Nat) : Nat :=
  (((red % 256) <<< 8) ||| ((green % 256) <<< 16) ||| (blue % 256)) % 2 ^ 32

def set_LED_blue (s : State) : State := put_pixel (urgb_u32 0x00 0x00 0x1F) s

def set_LED_green (s : State) : State := put_pixel (urgb_u32 0x00 0x1F 0x00) s

def set_LED_yellow (s : State) : State := put_pixel (urgb_u32 0x1F 0x1F 0x00) s

def set_LED_orange (s : State) : State := put_pixel (urgb_u32 0x1F 0xF 0x00) s

def set_LED_red (s : State) : State := put_pixel (urgb_u32 0x1F 0x00 0x00) s

/-- Colour of the LED from the number of lives left. -/
def change_LED_colour (s : State) : State :=
  if s.lives = 3 then set_LED_green s
  else if s.lives = 2 then set_LED_yellow s
  else if s.lives = 1 then set_LED_orange s
  else if s.lives = 0 then set_LED_red s
  else s

/-! ## Rounds -/

/-- Picks the character of the next round; `r` is what `rand()` returns when
it is called (levels 1 and 2), otherwise `randomChar` keeps its initial 0. -/
def choose_char (r : Nat) (s : State) : State :=
  let randomChar : Nat := 0
  let (randomChar, s) :=
    if s.current_level = 1 then
      (r % 36, printf (.target (char_at (r % 36)) (some (code_at (r % 36)))) s)
    else (randomChar, s)
  let (randomChar, s) :=
    if s.current_level = 2 then
      (r % 36, printf (.target (char_at (r % 36)) none) s)
    else (randomChar, s)
  let s := { s with required_answer := code_at randomChar }
  let s := { s with input_start := true }
  let s := { s with charsEntered := 0 }
  let s := { s with player_input := [] }
  let s := { s with num_tries := s.num_tries + 1 }
  printf .answer_so_far s

/-- Prints the instructions and resets the values at start-up. -/
def opening_sequence (s : State) : State :=
  let s := set_LED_blue s
  let s := printf .instructions s
  { s with player_input := [], input_start := true, game_is_complete := false,
           lives := 3, current_streak := 0, charsEntered := 0, correct_ans := 0,
           incorrect_ans := 0, num_tries := 0 }

/-- Level selection: the returned integer is 1 when a level was chosen. -/
def choose_level (r : Nat) (s : State) : Int × State :=
  if s.charsEntered = MAX_MORSE_INPUT then
    if s.player_input = code_at 1 then
      let s := printf (.level_selected 1) s
      let s := { s with current_level := 1 }
      let s := set_LED_green s
      (1, choose_char r s)
    else if s.player_input = code_at 2 then
      let s := printf (.level_selected 2) s
      let s := { s with current_level := 2 }
      let s := set_LED_green s
      (1, choose_char r s)
    else
      let s := printf .invalid_entry s
      (0, { s with input_start := true, charsEntered := 0, player_input := [] })
  else (0, s)

/-- Appends the newest input: 1 is a dash, 2 a dot, anything else a space. -/
def add_input (new_input : Int) (s : State) : State :=
  if s.charsEntered < MAX_MORSE_INPUT then
    if new_input = 1 then
      let s := { s with player_input := s.player_input ++ ['-'] }
      let s := printf (.echo '-') s
      let s := { s with charsEntered := s.charsEntered + 1 }
      if s.input_start = true then { s with input_start := false } else s
    else if new_input = 2 then
      let s := { s with player_input := s.player_input ++ ['.'] }
      let s := printf (.echo '.') s
      let s := { s with charsEntered := s.charsEntered + 1 }
      if s.input_start = true then { s with input_start := false } else s
    else if s.input_start = false then
      let s := { s with player_input := s.player_input ++ [' '] }
      let s := printf (.echo ' ') s
      { s with charsEntered := s.charsEntered + 1 }
    else s
  else s

/-- Prints the statistics of the level. -/
def print_statistics (s : State) : State :=
  printf (.statistics s.num_tries s.correct_ans s.incorrect_ans) s

/-- Value the main loop reads to know whether the game has ended. -/
def check_if_game_complete (s : State) : Int :=
  if s.game_is_complete = true then 1 else 0

/-- The player has lost or has finished the last level. -/
def game_complete (s : State) : State :=
  let s := { s with game_is_complete := true }
  if s.lives = 0 then printf .game_over s
  else
    let s := set_LED_blue s
    printf .game_won s

/-- Moves on to the next level, or ends the game after the last one. -/
def next_level (r : Nat) (s : State) : State :=
  let s := { s with current_level := s.current_level + 1 }
  let s := { s with current_streak := 0 }
  let s := { s with charsEntered := 0 }
  let s := { s with num_tries := 0 }
  let s := { s with correct_ans := 0 }
  let s := { s with incorrect_ans := 0 }
  if s.current_level > MAX_LEVEL then game_complete s
  else
    let s := printf (.level_reached s.current_level) s
    choose_char r s

/-- The search loop of `check_answer` (lines 421 to 427): `n` iterations
are left and `i` is the loop counter; the result is `found_letter`, or
`none` when `found` stays false. -/
def find_letter_loop (attempt : List Char) : Nat → Nat → Option Nat
  | 0, _ => none
  | n + 1, i => if attempt = code_at i then some i else find_letter_loop attempt n (i + 1)

/-- The loop run from `i = 0` while `i < MAX_CHARS`. -/
def find_letter (attempt : List Char) : Option Nat :=
  find_letter_loop attempt MAX_CHARS 0

/-- Lines 417 to 435 of `check_answer`: look the attempt up and print the
character it stands for, `?` when there is none. -/
def check_answer_report (s : State) : State :=
  match find_letter s.player_input with
  | some found_letter => printf (.typed s.player_input (char_at found_letter)) s
  | none => printf (.typed s.player_input '?') s

/-- Lines 437 to 454 of `check_answer`: compare with the required answer,
update streak, counters, lives and LED, print lives and streak. -/
def check_answer_score (s : State) : State :=
  let s :=
    if s.player_input = s.required_answer then
      let s := printf (.verdict true) s
      let s := { s with current_streak := s.current_streak + 1 }
      let s := { s with correct_ans := s.correct_ans + 1 }
      let s := if s.lives < MAX_LIVES then { s with lives := s.lives + 1 } else s
      change_LED_colour s
    else
      let s := printf (.verdict false) s
      let s := { s with lives := s.lives - 1 }
      let s := { s with incorrect_ans := s.incorrect_ans + 1 }
      let s := { s with current_streak := 0 }
      change_LED_colour s
  printf (.lives_streak s.lives s.current_streak) s

/-- Lines 456 to 468 of `check_answer`: game over, next level or next round. -/
def check_answer_continue (r : Nat) (s : State) : State :=
  if s.lives = 0 then
    let s := print_statistics s
    game_complete s
  else if s.current_streak = 5 then
    let s := print_statistics s
    next_level r s
  else choose_char r s

/-- Checks the attempt against the required answer. -/
def check_answer (r : Nat) (s : State) : State :=
  check_answer_continue r (check_answer_score (check_answer_report s))

/-- An integer brought into the range of a 32-bit `int`, from -2147483648
to 2147483647, by a multiple of 4294967296. -/
def wrap_int (x : Int) : Int :=
  (x + 2147483648) % 4294967296 - 2147483648

/-- Time difference between two time values, an `int` subtraction. -/
def calculate_duration (current_time previous_time : Int) : Int :=
  wrap_int (current_time - previous_time)

/-! ## Runs of the program -/

/-- The character `add_input` appends for an input it accepts: a dash for
1, a dot for 2, a space for anything else. -/
def input_char (new_input : Int) : Char :=
  if new_input = 1 then '-' else if new_input = 2 then '.' else ' '

/-- Feeds a list of inputs to `add_input`, first element first. -/
def feed (ts : List Int) (s : State) : State :=
  ts.foldl (fun acc t => add_input t acc) s

/-- One round: the player keys the inputs `ts`, then the attempt is checked;
`r` is the value `rand()` returns if the check draws a new character. -/
def play_round (ts : List Int) (r : Nat) (s : State) : State :=
  check_answer r (feed ts s)

/-- Consecutive rounds, first element first. -/
def play_rounds : List (List Int × Nat) → State → State
  | [], s => s
  | (ts, r) :: rest, s => play_rounds rest (play_round ts r s)

/-- In every round of the run the attempt that is checked equals the
required answer of that round. -/
def all_correct : List (List Int × Nat) → State → Prop
  | [], _ => True
  | (ts, r) :: rest, s =>
      (feed ts s).player_input = (feed ts s).required_answer ∧
        all_correct rest (play_round ts r s)

/-- In every round of the run the attempt that is checked differs from the
required answer of that round. -/
def all_wrong : List (List Int × Nat) → State → Prop
  | [], _ => True
  | (ts, r) :: rest, s =>
      (feed ts s).player_input ≠ (feed ts s).required_answer ∧
        all_wrong rest (play_round ts r s)

/-- In every round of the run the required answer that is compared has at
most four marks, so that with its terminator it fits the five bytes of
`required_answer` (line 21) and the comparison of line 438 reads it as it
was stored. -/
def answers_fit : List (List Int × Nat) → State → Prop
  | [], _ => True
  | (ts, r) :: rest, s =>
      (feed ts s).required_answer.length < 5 ∧ answers_fit rest (play_round ts r s)

instance answers_fit.decidable :
    (rounds : List (List Int × Nat)) → (s : State) → Decidable (answers_fit rounds s)
  | [], _ => isTrue trivial
  | (ts, r) :: rest, s =>
    have := answers_fit.decidable rest (play_round ts r s)
    inferInstanceAs (Decidable (_ ∧ _))

instance all_correct.decidable :
    (rounds : List (List Int × Nat)) → (s : State) → Decidable (all_correct rounds s)
  | [], _ => isTrue trivial
  | (ts, r) :: rest, s =>
    have := all_correct.decidable rest (play_round ts r s)
    inferInstanceAs (Decidable (_ ∧ _))

instance all_wrong.decidable :
    (rounds : List (List Int × Nat)) → (s : State) → Decidable (all_wrong rounds s)
  | [], _ => isTrue trivial
  | (ts, r) :: rest, s =>
    have := all_wrong.decidable rest (play_round ts r s)
    inferInstanceAs (Decidable (_ ∧ _))

/-- States the program reaches after `opening_sequence` ran on `s0`, by
calls of `add_input`, `choose_level` and `check_answer`, the last one only
while the game is not complete. -/
inductive Reachable (s0 : State) : State → Prop where
  | start : Reachable s0 (opening_sequence s0)
  | input (t : Int) {s : State} : Reachable s0 s → Reachable s0 (add_input t s)
  | level (r : Nat) {s : State} : Reachable s0 s → Reachable s0 (choose_level r s).2
  | check (r : Nat) {s : State} :
      Reachable s0 s → s.game_is_complete = false → Reachable s0 (check_answer r s)

/-- States in which a round has just been reset: after `opening_sequence`,
after `choose_char`, and after `choose_level` rejected an entry. -/
inductive RoundReset : State → Prop where
  | opening (s0 : State) : RoundReset (opening_sequence s0)
  | chosen (r : Nat) (s0 : State) : RoundReset (choose_char r s0)
  | rejected (r : Nat) (s0 : State) :
      s0.charsEntered = MAX_MORSE_INPUT → s0.player_input ≠ code_at 1 →
      s0.player_input ≠ code_at 2 → RoundReset (choose_level r s0).2

/-- States the program reaches after `opening_sequence` ran on `s0` when
every call of `add_input`, `choose_level` and `check_answer` is made while
the game is not complete. -/
inductive Live (s0 : State) : State → Prop where
  | start : Live s0 (opening_sequence s0)
  | input (t : Int) {s : State} :
      Live s0 s → s.game_is_complete = false → Live s0 (add_input t s)
  | level (r : Nat) {s : State} :
      Live s0 s → s.game_is_complete = false → Live s0 (choose_level r s).2
  | check (r : Nat) {s : State} :
      Live s0 s → s.game_is_complete = false → Live s0 (check_answer r s)

/-- States of the level selection: after `opening_sequence` ran on `s0`, by
calls of `add_input` and calls of `choose_level` that did not return 1. -/
inductive Selecting (s0 : State) : State → Prop where
  | start : Selecting s0 (opening_sequence s0)
  | input (t : Int) {s : State} : Selecting s0 s → Selecting s0 (add_input t s)
  | retry (r : Nat) {s : State} :
      Selecting s0 s → (choose_level r s).1 ≠ 1 → Selecting s0 (choose_level r s).2

/-- States of the game proper: `choose_level` returned 1 on a state of `P`,
then `add_input` and `check_answer` were called, the last one only while the
game is not complete. -/
inductive Playing (P : State → Prop) : State → Prop where
  | selected (r : Nat) {p : State} :
      P p → (choose_level r p).1 = 1 → Playing P (choose_level r p).2
  | input (t : Int) {s : State} : Playing P s → Playing P (add_input t s)
  | check (r : Nat) {s : State} :
      Playing P s → s.game_is_complete = false → Playing P (check_answer r s)

/-- States of the game proper before its end: `choose_level` returned 1 on
a state of `P`, then `add_input` and `check_answer` were called, each only
while the game is not complete. -/
inductive InPlay (P : State → Prop) : State → Prop where
  | selected (r : Nat) {p : State} :
      P p → (choose_level r p).1 = 1 → InPlay P (choose_level r p).2
  | input (t : Int) {s : State} :
      InPlay P s → s.game_is_complete = false → InPlay P (add_input t s)
  | check (r : Nat) {s : State} :
      InPlay P s → s.game_is_complete = false → InPlay P (check_answer r s)

/-- One call of a function of the program that writes the globals, with the
input it is given or the value `rand()` returns in it. -/
inductive Call where
  | add_input (new_input : Int)
  | choose_level (r : Nat)
  | choose_char (r : Nat)
  | check_answer (r : Nat)
  | next_level (r : Nat)
  | game_complete
  deriving DecidableEq, Repr

/-- The state after one call. -/
def run : Call → State → State
  | .add_input t, s => add_input t s
  | .choose_level r, s => (choose_level r s).2
  | .choose_char r, s => choose_char r s
  | .check_answer r, s => check_answer r s
  | .next_level r, s => next_level r s
  | .game_complete, s => game_complete s

/-- The state after a list of calls, first element first. -/
def run_all (calls : List Call) (s : State) : State :=
  calls.foldl (fun acc c => run c acc) s

/-! ## Press classification -/

/-- Modelled from the spec: the short-press threshold of the signal
classifier, which lives in the assembly part of the program (`main_asm`);
one second, in the microseconds of the clock. -/
def SHORT_PRESS : Int := 1000000

/-- Modelled from the spec: the signal classifier of the assembly part
(`main_asm`).  From the press and release timestamps it computes the
duration with `calculate_duration` and yields the input handed to
`add_input`: 2, a dot, when the duration is below the threshold, else 1, a
dash. -/
def classify_press (press_ts release_ts : Int) : Int :=
  if calculate_duration release_ts press_ts < SHORT_PRESS then 2 else 1

/-! ## The code table -/

/-- C1: for every index `i` of the table the search loop of `check_answer`,
run on the attempt `morseCode[i]`, stops at `i`, and the character printed
for that attempt is `alphaNumChars[i]`; the 36 Morse strings are pairwise
distinct. -/
theorem find_letter_code_at :
    (∀ i : Fin 36, find_letter (code_at i.val) = some i.val) ∧
    (∀ (i : Fin 36) (s : State),
      check_answer_report { s with player_input := code_at i.val } =
        printf (.typed (code_at i.val) (char_at i.val))
          { s with player_input := code_at i.val }) ∧
    morseCode.Nodup ∧ morseCode.length = 36 ∧ alphaNumChars.length = 36 := by
  have h : ∀ i : Fin 36, find_letter (code_at i.val) = some i.val := by decide
  refine ⟨h, ?_, by decide, rfl, rfl⟩
  intro i s
  simp only [check_answer_report, h i]

/-! ## What each function leaves alone -/

theorem add_input_session (t : Int) (s : State) :
    (add_input t s).lives = s.lives ∧
    (add_input t s).current_streak = s.current_streak ∧
    (add_input t s).current_level = s.current_level ∧
    (add_input t s).game_is_complete = s.game_is_complete ∧
    (add_input t s).correct_ans = s.correct_ans ∧
    (add_input t s).incorrect_ans = s.incorrect_ans ∧
    (add_input t s).num_tries = s.num_tries ∧
    (add_input t s).required_answer = s.required_answer ∧
    (add_input t s).pixels = s.pixels := by
  simp only [add_input, printf]
  repeat' split
  all_goals simp

theorem choose_char_session (r : Nat) (s : State) :
    (choose_char r s).lives = s.lives ∧
    (choose_char r s).current_streak = s.current_streak ∧
    (choose_char r s).current_level = s.current_level ∧
    (choose_char r s).game_is_complete = s.game_is_complete ∧
    (choose_char r s).correct_ans = s.correct_ans ∧
    (choose_char r s).incorrect_ans = s.incorrect_ans ∧
    (choose_char r s).num_tries = s.num_tries + 1 ∧
    (choose_char r s).pixels = s.pixels := by
  simp only [choose_char, printf]
  repeat' split
  all_goals simp

theorem choose_char_round (r : Nat) (s : State) :
    (choose_char r s).player_input = [] ∧
    (choose_char r s).charsEntered = 0 ∧
    (choose_char r s).input_start = true := by
  simp only [choose_char, printf]
  simp

theorem choose_char_required (r : Nat) (s : State) :
    (choose_char r s).required_answer =
      if s.current_level = 1 ∨ s.current_level = 2 then code_at (r % 36) else code_at 0 := by
  simp only [choose_char, printf]
  repeat' split
  all_goals simp_all

theorem choose_level_session (r : Nat) (s : State) :
    (choose_level r s).2.lives = s.lives ∧
    (choose_level r s).2.current_streak = s.current_streak ∧
    (choose_level r s).2.game_is_complete = s.game_is_complete ∧
    (choose_level r s).2.correct_ans = s.correct_ans ∧
    (choose_level r s).2.incorrect_ans = s.incorrect_ans := by
  unfold choose_level
  split_ifs <;>
    simp [choose_char_session, set_LED_green, put_pixel, printf]

theorem check_answer_report_frame (s : State) :
    (check_answer_report s).lives = s.lives ∧
    (check_answer_report s).current_streak = s.current_streak ∧
    (check_answer_report s).current_level = s.current_level ∧
    (check_answer_report s).game_is_complete = s.game_is_complete ∧
    (check_answer_report s).correct_ans = s.correct_ans ∧
    (check_answer_report s).incorrect_ans = s.incorrect_ans ∧
    (check_answer_report s).num_tries = s.num_tries ∧
    (check_answer_report s).required_answer = s.required_answer ∧
    (check_answer_report s).player_input = s.player_input ∧
    (check_answer_report s).charsEntered = s.charsEntered ∧
    (check_answer_report s).input_start = s.input_start ∧
    (check_answer_report s).pixels = s.pixels := by
  unfold check_answer_report printf
  split <;> simp

theorem change_LED_colour_frame (s : State) :
    (change_LED_colour s).lives = s.lives ∧
    (change_LED_colour s).current_streak = s.current_streak ∧
    (change_LED_colour s).current_level = s.current_level ∧
    (change_LED_colour s).game_is_complete = s.game_is_complete ∧
    (change_LED_colour s).correct_ans = s.correct_ans ∧
    (change_LED_colour s).incorrect_ans = s.incorrect_ans ∧
    (change_LED_colour s).num_tries = s.num_tries ∧
    (change_LED_colour s).required_answer = s.required_answer ∧
    (change_LED_colour s).player_input = s.player_input ∧
    (change_LED_colour s).charsEntered = s.charsEntered ∧
    (change_LED_colour s).input_start = s.input_start ∧
    (change_LED_colour s).console = s.console := by
  simp only [change_LED_colour, set_LED_green, set_LED_yellow, set_LED_orange, set_LED_red,
    put_pixel]
  repeat' split
  all_goals simp

theorem check_answer_score_frame (s : State) :
    (check_answer_score s).current_level = s.current_level ∧
    (check_answer_score s).game_is_complete = s.game_is_complete ∧
    (check_answer_score s).num_tries = s.num_tries ∧
    (check_answer_score s).required_answer = s.required_answer ∧
    (check_answer_score s).player_input = s.player_input ∧
    (check_answer_score s).charsEntered = s.charsEntered ∧
    (check_answer_score s).input_start = s.input_start := by
  simp only [check_answer_score, printf]
  split
  · split <;> simp [change_LED_colour_frame]
  · simp [change_LED_colour_frame]

theorem check_answer_score_correct (s : State) (h : s.player_input = s.required_answer) :
    (check_answer_score s).current_streak = s.current_streak + 1 ∧
    (check_answer_score s).correct_ans = s.correct_ans + 1 ∧
    (check_answer_score s).incorrect_ans = s.incorrect_ans ∧
    (check_answer_score s).lives = if s.lives < MAX_LIVES then s.lives + 1 else s.lives := by
  simp only [check_answer_score, printf, if_pos h]
  split <;> simp [change_LED_colour_frame, *]

theorem check_answer_score_wrong (s : State) (h : s.player_input ≠ s.required_answer) :
    (check_answer_score s).current_streak = 0 ∧
    (check_answer_score s).correct_ans = s.correct_ans ∧
    (check_answer_score s).incorrect_ans = s.incorrect_ans + 1 ∧
    (check_answer_score s).lives = s.lives - 1 := by
  simp only [check_answer_score, printf, if_neg h]
  simp [change_LED_colour_frame]

theorem game_complete_frame (s : State) :
    (game_complete s).game_is_complete = true ∧
    (game_complete s).lives = s.lives ∧
    (game_complete s).current_streak = s.current_streak ∧
    (game_complete s).current_level = s.current_level ∧
    (game_complete s).correct_ans = s.correct_ans ∧
    (game_complete s).incorrect_ans = s.incorrect_ans ∧
    (game_complete s).num_tries = s.num_tries ∧
    (game_complete s).required_answer = s.required_answer ∧
    (game_complete s).player_input = s.player_input ∧
    (game_complete s).charsEntered = s.charsEntered ∧
    (game_complete s).input_start = s.input_start := by
  simp only [game_complete, printf, set_LED_blue, put_pixel]
  split <;> simp

theorem next_level_frame (r : Nat) (s : State) :
    (next_level r s).lives = s.lives ∧
    (next_level r s).current_streak = 0 ∧
    (next_level r s).current_level = s.current_level + 1 ∧
    (next_level r s).game_is_complete =
      (if s.current_level + 1 > MAX_LEVEL then true else s.game_is_complete) := by
  simp only [next_level, printf]
  split <;> simp [game_complete_frame, choose_char_session]

theorem print_statistics_frame (s : State) :
    print_statistics s =
      { s with console := s.console ++
          [Print.statistics s.num_tries s.correct_ans s.incorrect_ans] } := rfl

theorem check_answer_continue_frame (r : Nat) (t : State) :
    (check_answer_continue r t).lives = t.lives ∧
    (check_answer_continue r t).current_streak =
      (if t.lives = 0 then t.current_streak
       else if t.current_streak = 5 then 0 else t.current_streak) ∧
    (check_answer_continue r t).current_level =
      (if t.lives = 0 then t.current_level
       else if t.current_streak = 5 then t.current_level + 1 else t.current_level) ∧
    (check_answer_continue r t).game_is_complete =
      (if t.lives = 0 then true
       else if t.current_streak = 5 then
         (if t.current_level + 1 > MAX_LEVEL then true else t.game_is_complete)
       else t.game_is_complete) := by
  simp only [check_answer_continue]
  split
  · simp [game_complete_frame, print_statistics_frame]
  · split
    · simp [next_level_frame, print_statistics_frame]
    · simp [choose_char_session]

/-- Invariant of the reachable states: bounds on lives and streak, and at
least one life while the game is not complete. -/
theorem reachable_bounds (s0 s : State) (h : Reachable s0 s) :
    0 ≤ s.lives ∧ s.lives ≤ 3 ∧ (s.game_is_complete = false → 1 ≤ s.lives) ∧
    0 ≤ s.current_streak ∧ s.current_streak ≤ 4 := by
  induction h with
  | start => simp [opening_sequence, set_LED_blue, put_pixel, printf]
  | input t _ ih => simpa [add_input_session] using ih
  | level r _ ih => simpa [choose_level_session] using ih
  | @check r s _ hc ih =>
    obtain ⟨h0, h3, h1, hs0, hs4⟩ := ih
    have h1 := h1 hc
    have hf := check_answer_score_frame (check_answer_report s)
    have hr := check_answer_report_frame s
    have hk := check_answer_continue_frame r (check_answer_score (check_answer_report s))
    by_cases hm : s.player_input = s.required_answer
    · have hsc := check_answer_score_correct (check_answer_report s)
        (by rw [hr.2.2.2.2.2.2.2.2.1, hr.2.2.2.2.2.2.2.1]; exact hm)
      simp only [check_answer, hk.1, hk.2.1, hk.2.2.2, hsc.1, hsc.2.2.2, hr.1, hr.2.1,
        MAX_LIVES]
      split_ifs <;> simp_all
      all_goals omega
    · have hsc := check_answer_score_wrong (check_answer_report s)
        (by rw [hr.2.2.2.2.2.2.2.2.1, hr.2.2.2.2.2.2.2.1]; exact hm)
      simp only [check_answer, hk.1, hk.2.1, hk.2.2.2, hsc.1, hsc.2.2.2, hr.1, hr.2.1]
      split_ifs <;> simp_all
      all_goals omega

/-! ## Lives and streak -/

/-- C2: in every state reached from the state set by `opening_sequence`
through calls of `add_input`, `choose_level` and `check_answer` (the last
never run once the completion flag is set), lives is between 0 and 3 and
the streak between 0 and 5; the same bounds hold for the values
`check_answer` prints after scoring, before it resets the streak. -/
theorem lives_streak_bounds (s0 s : State) (h : Reachable s0 s) :
    (0 ≤ s.lives ∧ s.lives ≤ 3 ∧ 0 ≤ s.current_streak ∧ s.current_streak ≤ 5) ∧
    (s.game_is_complete = false →
      0 ≤ (check_answer_score (check_answer_report s)).lives ∧
      (check_answer_score (check_answer_report s)).lives ≤ 3 ∧
      0 ≤ (check_answer_score (check_answer_report s)).current_streak ∧
      (check_answer_score (check_answer_report s)).current_streak ≤ 5) := by
  obtain ⟨h0, h3, h1, hs0, hs4⟩ := reachable_bounds s0 s h
  refine ⟨⟨h0, h3, hs0, by omega⟩, fun hc => ?_⟩
  have h1 := h1 hc
  have hr := check_answer_report_frame s
  by_cases hm : s.player_input = s.required_answer
  · have hsc := check_answer_score_correct (check_answer_report s)
      (by rw [hr.2.2.2.2.2.2.2.2.1, hr.2.2.2.2.2.2.2.1]; exact hm)
    rw [hsc.1, hsc.2.2.2, hr.1, hr.2.1]
    simp only [MAX_LIVES]
    split_ifs <;> omega
  · have hsc := check_answer_score_wrong (check_answer_report s)
      (by rw [hr.2.2.2.2.2.2.2.2.1, hr.2.2.2.2.2.2.2.1]; exact hm)
    rw [hsc.1, hsc.2.2.2, hr.1]
    omega

/-- Witness of C2 on the state reached from power-up by keying one dot and
checking the attempt: it is reachable, so the bounds hold there. -/
theorem lives_streak_bounds_witness :
    Reachable boot (check_answer 7 (add_input 2 (opening_sequence boot))) ∧
    (0 ≤ (check_answer 7 (add_input 2 (opening_sequence boot))).lives ∧
     (check_answer 7 (add_input 2 (opening_sequence boot))).lives ≤ 3 ∧
     0 ≤ (check_answer 7 (add_input 2 (opening_sequence boot))).current_streak ∧
     (check_answer 7 (add_input 2 (opening_sequence boot))).current_streak ≤ 5) :=
  ⟨Reachable.check 7 (Reachable.input 2 Reachable.start) (by decide),
   (lives_streak_bounds boot _
     (Reachable.check 7 (Reachable.input 2 Reachable.start) (by decide))).1⟩

/-! ## Level selection -/

/-- C3: after `opening_sequence`, keying dot, dash, dash, dash, dash and
calling `choose_level` returns 1 with level 1, three lives, streak 0 and a
fresh round (attempt empty, `charsEntered` 0, `input_start` true, a required
answer drawn from the table); keying dot, dot, dash, dash, dash returns 1
with level 2 in the same way; and `choose_level` returns 1 exactly when five
characters were entered and the attempt is one of these two codes. -/
theorem choose_level_selects (s0 : State) (r : Nat) :
    ((feed [2, 1, 1, 1, 1] (opening_sequence s0)).player_input = ['.', '-', '-', '-', '-'] ∧
     (choose_level r (feed [2, 1, 1, 1, 1] (opening_sequence s0))).1 = 1 ∧
     (choose_level r (feed [2, 1, 1, 1, 1] (opening_sequence s0))).2.current_level = 1 ∧
     (choose_level r (feed [2, 1, 1, 1, 1] (opening_sequence s0))).2.lives = 3 ∧
     (choose_level r (feed [2, 1, 1, 1, 1] (opening_sequence s0))).2.current_streak = 0 ∧
     (choose_level r (feed [2, 1, 1, 1, 1] (opening_sequence s0))).2.player_input = [] ∧
     (choose_level r (feed [2, 1, 1, 1, 1] (opening_sequence s0))).2.charsEntered = 0 ∧
     (choose_level r (feed [2, 1, 1, 1, 1] (opening_sequence s0))).2.input_start = true ∧
     (choose_level r (feed [2, 1, 1, 1, 1] (opening_sequence s0))).2.required_answer
        = code_at (r % 36) ∧
     (choose_level r (feed [2, 1, 1, 1, 1] (opening_sequence s0))).2.game_is_complete
        = false) ∧
    ((feed [2, 2, 1, 1, 1] (opening_sequence s0)).player_input = ['.', '.', '-', '-', '-'] ∧
     (choose_level r (feed [2, 2, 1, 1, 1] (opening_sequence s0))).1 = 1 ∧
     (choose_level r (feed [2, 2, 1, 1, 1] (opening_sequence s0))).2.current_level = 2 ∧
     (choose_level r (feed [2, 2, 1, 1, 1] (opening_sequence s0))).2.lives = 3 ∧
     (choose_level r (feed [2, 2, 1, 1, 1] (opening_sequence s0))).2.current_streak = 0 ∧
     (choose_level r (feed [2, 2, 1, 1, 1] (opening_sequence s0))).2.player_input = [] ∧
     (choose_level r (feed [2, 2, 1, 1, 1] (opening_sequence s0))).2.charsEntered = 0 ∧
     (choose_level r (feed [2, 2, 1, 1, 1] (opening_sequence s0))).2.input_start = true ∧
     (choose_level r (feed [2, 2, 1, 1, 1] (opening_sequence s0))).2.required_answer
        = code_at (r % 36) ∧
     (choose_level r (feed [2, 2, 1, 1, 1] (opening_sequence s0))).2.game_is_complete
        = false) ∧
    (∀ s : State, (choose_level r s).1 = 1 ↔
      s.charsEntered = 5 ∧
        (s.player_input = ['.', '-', '-', '-', '-'] ∨
         s.player_input = ['.', '.', '-', '-', '-'])) := by
  refine ⟨?_, ?_, ?_⟩
  · simp [feed, add_input, opening_sequence, choose_level, choose_char, printf,
      set_LED_blue, set_LED_green, put_pixel, MAX_MORSE_INPUT, code_at, morseCode]
  · simp [feed, add_input, opening_sequence, choose_level, choose_char, printf,
      set_LED_blue, set_LED_green, put_pixel, MAX_MORSE_INPUT, code_at, morseCode]
  · intro s
    have h1 : code_at 1 = ['.', '-', '-', '-', '-'] := rfl
    have h2 : code_at 2 = ['.', '.', '-', '-', '-'] := rfl
    simp only [choose_level, MAX_MORSE_INPUT, h1, h2]
    split_ifs <;> simp_all

/-- C4, as stated, fails: after start-up and one dot the attempt has length
1 and is neither level code, yet `choose_level` returns 0 without resetting
anything, the attempt is still the dot. -/
theorem choose_level_keeps_short_attempt :
    (add_input 2 (opening_sequence boot)).player_input = ['.'] ∧
    (choose_level 0 (add_input 2 (opening_sequence boot))).1 = 0 ∧
    (choose_level 0 (add_input 2 (opening_sequence boot))).2.player_input = ['.'] ∧
    (choose_level 0 (add_input 2 (opening_sequence boot))).2.charsEntered = 1 ∧
    (choose_level 0 (add_input 2 (opening_sequence boot))).2.input_start = false := by
  decide

/-- C4, amended: when five characters were entered and the attempt is
neither level code, `choose_level` returns 0, empties the attempt
(`player_input` empty, `charsEntered` 0, `input_start` true) and leaves
lives, streak, level, the three counters, the completion flag, the required
answer and the LED alone; when fewer (or more) than five characters were
entered it returns 0 and changes nothing at all, the attempt included. -/
theorem choose_level_rejects (r : Nat) (s : State)
    (h1 : s.player_input ≠ ['.', '-', '-', '-', '-'])
    (h2 : s.player_input ≠ ['.', '.', '-', '-', '-']) :
    (s.charsEntered = 5 →
      (choose_level r s).1 = 0 ∧
      (choose_level r s).2.player_input = [] ∧
      (choose_level r s).2.charsEntered = 0 ∧
      (choose_level r s).2.input_start = true ∧
      (choose_level r s).2.lives = s.lives ∧
      (choose_level r s).2.current_streak = s.current_streak ∧
      (choose_level r s).2.current_level = s.current_level ∧
      (choose_level r s).2.num_tries = s.num_tries ∧
      (choose_level r s).2.correct_ans = s.correct_ans ∧
      (choose_level r s).2.incorrect_ans = s.incorrect_ans ∧
      (choose_level r s).2.game_is_complete = s.game_is_complete ∧
      (choose_level r s).2.required_answer = s.required_answer ∧
      (choose_level r s).2.pixels = s.pixels ∧
      (choose_level r s).2.console = s.console ++ [Print.invalid_entry]) ∧
    (s.charsEntered ≠ 5 → choose_level r s = (0, s)) := by
  have c1 : code_at 1 = ['.', '-', '-', '-', '-'] := rfl
  have c2 : code_at 2 = ['.', '.', '-', '-', '-'] := rfl
  constructor
  · intro h5
    simp [choose_level, MAX_MORSE_INPUT, h5, c1, c2, h1, h2, printf]
  · intro h5
    simp [choose_level, MAX_MORSE_INPUT, h5]

/-- Witness of the amended C4: five dashes are rejected and the attempt is
emptied. -/
theorem choose_level_rejects_witness :
    (feed [1, 1, 1, 1, 1] (opening_sequence boot)).player_input = ['-', '-', '-', '-', '-'] ∧
    (choose_level 0 (feed [1, 1, 1, 1, 1] (opening_sequence boot))).1 = 0 ∧
    (choose_level 0 (feed [1, 1, 1, 1, 1] (opening_sequence boot))).2.player_input = [] :=
  ⟨by decide,
   ((choose_level_rejects 0 (feed [1, 1, 1, 1, 1] (opening_sequence boot))
      (by decide) (by decide)).1 (by decide)).1,
   ((choose_level_rejects 0 (feed [1, 1, 1, 1, 1] (opening_sequence boot))
      (by decide) (by decide)).1 (by decide)).2.1⟩

/-! ## Scoring a round -/

/-- A matching attempt on a required answer of at most four marks, which
fits `required_answer` with its terminator: when lives is between 1 and 3,
the scoring step of `check_answer` adds one to `correct_ans` and to
`current_streak` and sets lives to `min (lives + 1) 3`; `check_answer` as a
whole returns with that number of lives, and with the incremented counter
and streak and a new round (attempt empty, `charsEntered` 0, `input_start`
true, completion flag untouched) unless the streak has just reached 5, in
which case the level transition follows.  At level 1 with three lives,
no correct answer and streak 0 the result has three lives, one correct
answer, streak 1 and a new round with the flag still false. -/
theorem check_answer_correct (r : Nat) (s : State)
    (hm : s.player_input = s.required_answer) (_hfit : s.required_answer.length < 5)
    (h1 : 1 ≤ s.lives) (h3 : s.lives ≤ 3) :
    ((check_answer_score (check_answer_report s)).correct_ans = s.correct_ans + 1 ∧
     (check_answer_score (check_answer_report s)).current_streak = s.current_streak + 1 ∧
     (check_answer_score (check_answer_report s)).lives = min (s.lives + 1) 3) ∧
    (check_answer r s).lives = min (s.lives + 1) 3 ∧
    (s.current_streak + 1 ≠ 5 →
      (check_answer r s).correct_ans = s.correct_ans + 1 ∧
      (check_answer r s).current_streak = s.current_streak + 1 ∧
      (check_answer r s).current_level = s.current_level ∧
      (check_answer r s).player_input = [] ∧
      (check_answer r s).charsEntered = 0 ∧
      (check_answer r s).input_start = true ∧
      (check_answer r s).game_is_complete = s.game_is_complete) ∧
    (s.current_level = 1 → s.lives = 3 → s.correct_ans = 0 → s.current_streak = 0 →
      s.game_is_complete = false →
      (check_answer r s).lives = 3 ∧
      (check_answer r s).correct_ans = 1 ∧
      (check_answer r s).current_streak = 1 ∧
      (check_answer r s).current_level = 1 ∧
      (check_answer r s).player_input = [] ∧
      (check_answer r s).charsEntered = 0 ∧
      (check_answer r s).input_start = true ∧
      (check_answer r s).required_answer = code_at (r % 36) ∧
      (check_answer r s).game_is_complete = false) := by
  have hr := check_answer_report_frame s
  have hf := check_answer_score_frame (check_answer_report s)
  have hsc := check_answer_score_correct (check_answer_report s)
    (by rw [hr.2.2.2.2.2.2.2.2.1, hr.2.2.2.2.2.2.2.1]; exact hm)
  have hk := check_answer_continue_frame r (check_answer_score (check_answer_report s))
  have hl : (check_answer_score (check_answer_report s)).lives = min (s.lives + 1) 3 := by
    rw [hsc.2.2.2, hr.1]
    simp only [MAX_LIVES]
    split_ifs <;> omega
  have hl0 : (check_answer_score (check_answer_report s)).lives ≠ 0 := by
    rw [hl]; omega
  have hnext : s.current_streak + 1 ≠ 5 →
      check_answer r s = choose_char r (check_answer_score (check_answer_report s)) := by
    intro h5
    have : (check_answer_score (check_answer_report s)).current_streak ≠ 5 := by
      rw [hsc.1, hr.2.1]; exact h5
    simp [check_answer, check_answer_continue, hl0, this]
  have hgen : s.current_streak + 1 ≠ 5 →
      (check_answer r s).correct_ans = s.correct_ans + 1 ∧
      (check_answer r s).current_streak = s.current_streak + 1 ∧
      (check_answer r s).current_level = s.current_level ∧
      (check_answer r s).player_input = [] ∧
      (check_answer r s).charsEntered = 0 ∧
      (check_answer r s).input_start = true ∧
      (check_answer r s).game_is_complete = s.game_is_complete := by
    intro h5
    rw [hnext h5]
    have hcs := choose_char_session r (check_answer_score (check_answer_report s))
    have hcr := choose_char_round r (check_answer_score (check_answer_report s))
    refine ⟨?_, ?_, ?_, hcr.1, hcr.2.1, hcr.2.2, ?_⟩
    · rw [hcs.2.2.2.2.1, hsc.2.1, hr.2.2.2.2.1]
    · rw [hcs.2.1, hsc.1, hr.2.1]
    · rw [hcs.2.2.1, hf.1, hr.2.2.1]
    · rw [hcs.2.2.2.1, hf.2.1, hr.2.2.2.1]
  refine ⟨⟨?_, ?_, hl⟩, ?_, hgen, ?_⟩
  · rw [hsc.2.1, hr.2.2.2.2.1]
  · rw [hsc.1, hr.2.1]
  · rw [check_answer, hk.1, hl]
  · intro hlev hl3 hc0 hs0 hflag
    have h5 : s.current_streak + 1 ≠ 5 := by omega
    obtain ⟨g1, g2, g3, g4, g5, g6, g7⟩ := hgen h5
    have hlv : (check_answer r s).lives = 3 := by
      rw [check_answer, hk.1, hl]; omega
    have hreq : (check_answer r s).required_answer = code_at (r % 36) := by
      rw [hnext h5, choose_char_required, hf.1, hr.2.2.1, hlev]
      simp
    refine ⟨hlv, ?_, ?_, ?_, g4, g5, g6, hreq, ?_⟩
    · rw [g1, hc0]; rfl
    · rw [g2, hs0]; rfl
    · rw [g3, hlev]
    · rw [g7, hflag]

/-- The letter `A` at level 1: the player keys dot dash, the answer fits
its array and the round is scored as correct. -/
theorem check_answer_correct_witness :
    (feed [2, 1] (choose_level 10 (feed [2, 1, 1, 1, 1] (opening_sequence boot))).2).player_input
      = ['.', '-'] ∧
    (check_answer 3
      (feed [2, 1] (choose_level 10 (feed [2, 1, 1, 1, 1] (opening_sequence boot))).2)).lives
      = min (3 + 1) 3 ∧
    (check_answer 3
      (feed [2, 1]
        (choose_level 10 (feed [2, 1, 1, 1, 1] (opening_sequence boot))).2)).correct_ans = 1 :=
  ⟨by decide,
   (check_answer_correct 3
      (feed [2, 1] (choose_level 10 (feed [2, 1, 1, 1, 1] (opening_sequence boot))).2)
      (by decide) (by decide) (by decide) (by decide)).2.1,
   ((check_answer_correct 3
      (feed [2, 1] (choose_level 10 (feed [2, 1, 1, 1, 1] (opening_sequence boot))).2)
      (by decide) (by decide) (by decide) (by decide)).2.2.2
        (by decide) (by decide) (by decide) (by decide) (by decide)).2.1⟩

/-- C6, as stated, fails at lives = 0: level 1 is chosen, the required
answer is five dashes, the player keys one dot three times and the game is
over with no life left; one more `check_answer` on that state, whose attempt
still differs from the required answer, takes lives to -1. -/
theorem check_answer_below_zero :
    (play_rounds [([2], 0), ([2], 0), ([2], 0)]
      (choose_level 0 (feed [2, 1, 1, 1, 1] (opening_sequence boot))).2).lives = 0 ∧
    (play_rounds [([2], 0), ([2], 0), ([2], 0)]
      (choose_level 0 (feed [2, 1, 1, 1, 1] (opening_sequence boot))).2).player_input ≠
    (play_rounds [([2], 0), ([2], 0), ([2], 0)]
      (choose_level 0 (feed [2, 1, 1, 1, 1] (opening_sequence boot))).2).required_answer ∧
    (check_answer 0 (play_rounds [([2], 0), ([2], 0), ([2], 0)]
      (choose_level 0 (feed [2, 1, 1, 1, 1] (opening_sequence boot))).2)).lives = -1 := by
  decide

/-- C6, amended: when the attempt differs from the required answer and lives
is between 1 and 3, `check_answer` adds one to `incorrect_ans`, sets the
streak to 0 and takes one life, which leaves lives at 0 or above. -/
theorem check_answer_wrong (r : Nat) (s : State)
    (hm : s.player_input ≠ s.required_answer) (h1 : 1 ≤ s.lives) (h3 : s.lives ≤ 3) :
    (check_answer r s).incorrect_ans = s.incorrect_ans + 1 ∧
    (check_answer r s).current_streak = 0 ∧
    (check_answer r s).lives = s.lives - 1 ∧
    0 ≤ (check_answer r s).lives ∧
    (check_answer r s).correct_ans = s.correct_ans := by
  have hr := check_answer_report_frame s
  have hsc := check_answer_score_wrong (check_answer_report s)
    (by rw [hr.2.2.2.2.2.2.2.2.1, hr.2.2.2.2.2.2.2.1]; exact hm)
  have hk := check_answer_continue_frame r (check_answer_score (check_answer_report s))
  have hl : (check_answer r s).lives = s.lives - 1 := by
    rw [check_answer, hk.1, hsc.2.2.2, hr.1]
  have hs : (check_answer r s).current_streak = 0 := by
    rw [check_answer, hk.2.1, hsc.1]
    split_ifs <;> rfl
  have hci : (check_answer r s).incorrect_ans = s.incorrect_ans + 1 ∧
      (check_answer r s).correct_ans = s.correct_ans := by
    have h5 : (check_answer_score (check_answer_report s)).current_streak ≠ 5 := by
      rw [hsc.1]; decide
    by_cases h0 : (check_answer_score (check_answer_report s)).lives = 0
    · simp [check_answer, check_answer_continue, h0, game_complete_frame,
        print_statistics_frame, hsc.2.1, hsc.2.2.1, hr.2.2.2.2.1, hr.2.2.2.2.2.1]
    · simp [check_answer, check_answer_continue, h0, h5, choose_char_session,
        hsc.2.1, hsc.2.2.1, hr.2.2.2.2.1, hr.2.2.2.2.2.1]
  exact ⟨hci.1, hs, hl, by rw [hl]; omega, hci.2⟩

/-- Witness of the amended C6: level 1 chosen after start-up, five dashes
required, the player keys one dot. -/
theorem check_answer_wrong_witness :
    (feed [2] (choose_level 0 (feed [2, 1, 1, 1, 1] (opening_sequence boot))).2).lives = 3 ∧
    (check_answer 4
      (feed [2] (choose_level 0 (feed [2, 1, 1, 1, 1] (opening_sequence boot))).2)).lives
      = 3 - 1 ∧
    (check_answer 4
      (feed [2] (choose_level 0 (feed [2, 1, 1, 1, 1] (opening_sequence boot))).2)).current_streak
      = 0 :=
  ⟨by decide,
   (check_answer_wrong 4
      (feed [2] (choose_level 0 (feed [2, 1, 1, 1, 1] (opening_sequence boot))).2)
      (by decide) (by decide) (by decide)).2.2.1,
   (check_answer_wrong 4
      (feed [2] (choose_level 0 (feed [2, 1, 1, 1, 1] (opening_sequence boot))).2)
      (by decide) (by decide) (by decide)).2.1⟩

/-! ## Consecutive rounds -/

theorem feed_session (ts : List Int) (s : State) :
    (feed ts s).lives = s.lives ∧
    (feed ts s).current_streak = s.current_streak ∧
    (feed ts s).current_level = s.current_level ∧
    (feed ts s).game_is_complete = s.game_is_complete ∧
    (feed ts s).correct_ans = s.correct_ans ∧
    (feed ts s).incorrect_ans = s.incorrect_ans ∧
    (feed ts s).num_tries = s.num_tries ∧
    (feed ts s).required_answer = s.required_answer ∧
    (feed ts s).pixels = s.pixels := by
  induction ts generalizing s with
  | nil => simp [feed]
  | cons t ts ih =>
    have h := ih (add_input t s)
    have ha := add_input_session t s
    simp only [feed, List.foldl_cons] at h ⊢
    simp only [h, ha, and_self]

theorem next_level_round (r : Nat) (s : State) (h : s.current_level + 1 ≤ MAX_LEVEL) :
    (next_level r s).player_input = [] ∧
    (next_level r s).charsEntered = 0 ∧
    (next_level r s).input_start = true ∧
    (next_level r s).game_is_complete = s.game_is_complete ∧
    (next_level r s).required_answer =
      (if s.current_level + 1 = 1 ∨ s.current_level + 1 = 2 then code_at (r % 36)
       else code_at 0) := by
  have hn : ¬ (s.current_level + 1 > MAX_LEVEL) := not_lt.mpr h
  simp only [next_level, printf, if_neg hn]
  simp [choose_char_round, choose_char_session, choose_char_required]

theorem check_answer_score_red (s : State) (h : s.player_input ≠ s.required_answer)
    (h0 : s.lives - 1 = 0) :
    (check_answer_score s).pixels = s.pixels ++ [(urgb_u32 0x1F 0x00 0x00 <<< 8) % 2 ^ 32] := by
  have hl : s.lives = 1 := by omega
  simp [check_answer_score, printf, if_neg h, change_LED_colour, hl, set_LED_red, put_pixel]

/-- A round whose attempt does not match. -/
theorem play_round_miss (ts : List Int) (r : Nat) (s : State)
    (hm : (feed ts s).player_input ≠ (feed ts s).required_answer) :
    (play_round ts r s).lives = s.lives - 1 ∧
    (s.lives - 1 ≠ 0 → (play_round ts r s).game_is_complete = s.game_is_complete) ∧
    (s.lives - 1 = 0 →
      (play_round ts r s).game_is_complete = true ∧
      (play_round ts r s).pixels.getLast? = some ((urgb_u32 0x1F 0x00 0x00 <<< 8) % 2 ^ 32)) := by
  have hfd := feed_session ts s
  have hr := check_answer_report_frame (feed ts s)
  have hf := check_answer_score_frame (check_answer_report (feed ts s))
  have hm2 : (check_answer_report (feed ts s)).player_input ≠
      (check_answer_report (feed ts s)).required_answer := by
    rw [hr.2.2.2.2.2.2.2.2.1, hr.2.2.2.2.2.2.2.1]; exact hm
  have hsc := check_answer_score_wrong (check_answer_report (feed ts s)) hm2
  have hk := check_answer_continue_frame r (check_answer_score (check_answer_report (feed ts s)))
  have hl : (check_answer_score (check_answer_report (feed ts s))).lives = s.lives - 1 := by
    rw [hsc.2.2.2, hr.1, hfd.1]
  have hst : (check_answer_score (check_answer_report (feed ts s))).current_streak ≠ 5 := by
    rw [hsc.1]; decide
  refine ⟨by rw [play_round, check_answer, hk.1, hl], ?_, ?_⟩
  · intro h0
    rw [play_round, check_answer, hk.2.2.2, hl, if_neg h0, if_neg hst, hf.2.1, hr.2.2.2.1,
      hfd.2.2.2.1]
  · intro h0
    refine ⟨by rw [play_round, check_answer, hk.2.2.2, hl, if_pos h0], ?_⟩
    have hred := check_answer_score_red (check_answer_report (feed ts s)) hm2
      (by rw [hr.1, hfd.1]; exact h0)
    have hl0 : (check_answer_score (check_answer_report (feed ts s))).lives = 0 := by
      rw [hl]; exact h0
    simp [play_round, check_answer, check_answer_continue, hl0, game_complete,
      print_statistics_frame, printf, hred]

/-- C8: from a playing state with three lives and the completion flag false,
three consecutive rounds in each of which the attempt checked differs from
the required answer of that round, whatever `rand()` returns, end with no
life left and the completion flag set, and the last word sent to the LED is
red; after the first and the second of these rounds lives is 2 and 1 and the
flag is still false. -/
theorem three_wrong_rounds (s : State) (rounds : List (List Int × Nat))
    (hlen : rounds.length = 3) (hall : all_wrong rounds s)
    (hl : s.lives = 3) (hc : s.game_is_complete = false) :
    (play_rounds rounds s).lives = 0 ∧
    (play_rounds rounds s).game_is_complete = true ∧
    (play_rounds rounds s).pixels.getLast? =
      some ((urgb_u32 0x1F 0x00 0x00 <<< 8) % 2 ^ 32) ∧
    ((play_rounds (rounds.take 1) s).lives = 2 ∧
     (play_rounds (rounds.take 1) s).game_is_complete = false) ∧
    ((play_rounds (rounds.take 2) s).lives = 1 ∧
     (play_rounds (rounds.take 2) s).game_is_complete = false) := by
  obtain _ | ⟨⟨t1, r1⟩, _ | ⟨⟨t2, r2⟩, _ | ⟨⟨t3, r3⟩, rest⟩⟩⟩ := rounds <;> simp at hlen
  subst hlen
  simp only [all_wrong, and_true] at hall
  obtain ⟨m1, m2, m3⟩ := hall
  obtain ⟨al, ac, _⟩ := play_round_miss t1 r1 s m1
  obtain ⟨bl, bc, _⟩ := play_round_miss t2 r2 _ m2
  obtain ⟨cl, _, cc⟩ := play_round_miss t3 r3 _ m3
  rw [hl] at al ac
  rw [al] at bl bc
  rw [bl] at cl cc
  have ac := ac (by decide)
  have bc := bc (by decide)
  obtain ⟨cf, cp⟩ := cc (by decide)
  simp only [play_rounds, List.take]
  exact ⟨by rw [cl]; rfl, cf, cp, ⟨by rw [al]; rfl, by rw [ac, hc]⟩,
    ⟨by rw [bl]; rfl, by rw [bc, ac, hc]⟩⟩

/-- Witness of C8: level 1 chosen after start-up, five dashes required in
every round, the player keys one dot three times. -/
theorem three_wrong_rounds_witness :
    all_wrong [([2], 0), ([2], 0), ([2], 0)]
      (choose_level 0 (feed [2, 1, 1, 1, 1] (opening_sequence boot))).2 ∧
    (play_rounds [([2], 0), ([2], 0), ([2], 0)]
      (choose_level 0 (feed [2, 1, 1, 1, 1] (opening_sequence boot))).2).lives = 0 ∧
    (play_rounds [([2], 0), ([2], 0), ([2], 0)]
      (choose_level 0 (feed [2, 1, 1, 1, 1] (opening_sequence boot))).2).game_is_complete
      = true :=
  ⟨by decide,
   (three_wrong_rounds (choose_level 0 (feed [2, 1, 1, 1, 1] (opening_sequence boot))).2
      [([2], 0), ([2], 0), ([2], 0)] (by decide) (by decide) (by decide) (by decide)).1,
   (three_wrong_rounds (choose_level 0 (feed [2, 1, 1, 1, 1] (opening_sequence boot))).2
      [([2], 0), ([2], 0), ([2], 0)] (by decide) (by decide) (by decide) (by decide)).2.1⟩

/-! ## The attempt -/

theorem add_input_full (t : Int) (s : State) (h : s.charsEntered = 5) : add_input t s = s := by
  simp [add_input, MAX_MORSE_INPUT, h]

theorem feed_full (ts : List Int) (s : State) (h : s.charsEntered = 5) : feed ts s = s := by
  induction ts with
  | nil => rfl
  | cons t ts ih => simpa [feed, add_input_full t s h] using ih

theorem add_input_mark (m : Int) (s : State) (hm : m = 1 ∨ m = 2) (hlt : s.charsEntered < 5) :
    (add_input m s).player_input = s.player_input ++ [input_char m] ∧
    (add_input m s).charsEntered = s.charsEntered + 1 := by
  have hlt2 : s.charsEntered < MAX_MORSE_INPUT := hlt
  rcases hm with rfl | rfl
  · simp only [add_input, if_pos hlt2, printf, input_char]
    repeat' split
    all_goals simp_all
  · simp only [add_input, if_pos hlt2, printf, input_char]
    repeat' split
    all_goals simp_all

theorem feed_marks (ms : List Int) (s : State) (hm : ∀ m ∈ ms, m = 1 ∨ m = 2)
    (hlen : s.charsEntered + ms.length ≤ 5) :
    (feed ms s).player_input = s.player_input ++ ms.map input_char ∧
    (feed ms s).charsEntered = s.charsEntered + ms.length := by
  induction ms generalizing s with
  | nil => simp [feed]
  | cons m ms ih =>
    have hm1 : m = 1 ∨ m = 2 := hm m (List.mem_cons_self m ms)
    have hlen2 : s.charsEntered + 1 + (ms.length : Int) ≤ 5 := by
      simp only [List.length_cons, Nat.cast_add, Nat.cast_one] at hlen; omega
    obtain ⟨a1, a2⟩ := add_input_mark m s hm1 (by omega)
    have h := ih (add_input m s) (fun x hx => hm x (List.mem_cons_of_mem m hx))
      (by rw [a2]; exact hlen2)
    simp only [feed, List.foldl_cons] at h ⊢
    rw [h.1, h.2, a1, a2]
    simp only [List.map_cons, List.append_assoc, List.singleton_append, List.length_cons,
      Nat.cast_add, Nat.cast_one, true_and]
    omega

/-- C9: in a state with `charsEntered = 5`, `add_input` with any input
returns the state as it was (attempt, `charsEntered`, `input_start`, session
fields and console, so nothing is echoed), whatever is keyed afterwards is
dropped too, and `check_answer` gives the same result as without the extra
input.  In particular after five marks keyed into an empty attempt, a sixth
input is discarded and the attempt checked is made of the five marks. -/
theorem add_input_at_cap (t : Int) (s : State) (h : s.charsEntered = 5) :
    add_input t s = s ∧
    (add_input t s).console = s.console ∧
    (∀ ts : List Int, feed ts s = s) ∧
    (∀ r : Nat, check_answer r (add_input t s) = check_answer r s) ∧
    (∀ (s0 : State) (ms : List Int), s0.player_input = [] → s0.charsEntered = 0 →
      ms.length = 5 → (∀ m ∈ ms, m = 1 ∨ m = 2) →
      (feed ms s0).player_input = ms.map input_char ∧
      feed (ms ++ [t]) s0 = feed ms s0 ∧
      (∀ r : Nat, play_round (ms ++ [t]) r s0 = play_round ms r s0)) := by
  have ha := add_input_full t s h
  refine ⟨ha, by rw [ha], fun ts => feed_full ts s h, fun r => by rw [ha], ?_⟩
  intro s0 ms hp h0 hlen hm
  obtain ⟨f1, f2⟩ := feed_marks ms s0 hm (by rw [h0, hlen]; decide)
  have h5 : (feed ms s0).charsEntered = 5 := by rw [f2, h0, hlen]; decide
  have hfeed : feed (ms ++ [t]) s0 = feed ms s0 := by
    have : feed (ms ++ [t]) s0 = add_input t (feed ms s0) := by
      simp [feed, List.foldl_append]
    rw [this, add_input_full t _ h5]
  refine ⟨by rw [f1, hp]; rfl, hfeed, fun r => by rw [play_round, play_round, hfeed]⟩

/-- Witness of C9: after start-up the player keys dot, dash, dash, dash,
dash; a sixth input, a dot, changes nothing. -/
theorem add_input_at_cap_witness :
    (feed [2, 1, 1, 1, 1] (opening_sequence boot)).charsEntered = 5 ∧
    add_input 2 (feed [2, 1, 1, 1, 1] (opening_sequence boot)) =
      feed [2, 1, 1, 1, 1] (opening_sequence boot) :=
  ⟨by decide,
   (add_input_at_cap 2 (feed [2, 1, 1, 1, 1] (opening_sequence boot)) (by decide)).1⟩

theorem round_reset_empty (s : State) (h : RoundReset s) :
    s.player_input = [] ∧ s.input_start = true := by
  cases h with
  | opening s0 => simp [opening_sequence, set_LED_blue, put_pixel, printf]
  | chosen r s0 => exact ⟨(choose_char_round r s0).1, (choose_char_round r s0).2.2⟩
  | rejected r s0 h5 h1 h2 => simp [choose_level, h5, h1, h2, printf]

theorem add_input_started (t : Int) (s : State)
    (hi : s.input_start = true ↔ s.player_input = [])
    (hh : s.player_input.head? ≠ some ' ') :
    ((add_input t s).input_start = true ↔ (add_input t s).player_input = []) ∧
    (add_input t s).player_input.head? ≠ some ' ' := by
  cases hp : s.player_input with
  | nil =>
    have hs : s.input_start = true := hi.mpr hp
    simp only [add_input, printf]
    repeat' split
    all_goals simp_all
  | cons c cs =>
    have hs : s.input_start = false := by
      cases hb : s.input_start with
      | false => rfl
      | true => rw [hi.mp hb] at hp; cases hp
    rw [hp] at hh
    simp only [add_input, printf]
    repeat' split
    all_goals simp_all

/-- C10: an input other than dash and dot, such as the space 3, given while
`input_start` is true leaves the state as it is, so the attempt and
`charsEntered` do not change; and in every state reached from a round reset
(`opening_sequence`, `choose_char`, or a rejection by `choose_level`) by any
calls of `add_input`, the attempt does not begin with a space and
`input_start` is true exactly when the attempt is empty. -/
theorem space_only_after_start (s : State) (ts : List Int) (h : RoundReset s) :
    (∀ u : State, u.input_start = true →
      (add_input 3 u).player_input = u.player_input ∧
      (add_input 3 u).charsEntered = u.charsEntered ∧ add_input 3 u = u) ∧
    (feed ts s).player_input.head? ≠ some ' ' ∧
    ((feed ts s).input_start = true ↔ (feed ts s).player_input = []) := by
  constructor
  · intro u hu
    have : add_input 3 u = u := by
      simp only [add_input, printf]
      repeat' split
      all_goals simp_all
    rw [this]; exact ⟨rfl, rfl, rfl⟩
  · obtain ⟨hp, hs⟩ := round_reset_empty s h
    have key : ∀ (l : List Int) (u : State),
        (u.input_start = true ↔ u.player_input = []) → u.player_input.head? ≠ some ' ' →
        ((feed l u).input_start = true ↔ (feed l u).player_input = []) ∧
        (feed l u).player_input.head? ≠ some ' ' := by
      intro l
      induction l with
      | nil => intro u h1 h2; exact ⟨h1, h2⟩
      | cons t l ih =>
        intro u h1 h2
        obtain ⟨g1, g2⟩ := add_input_started t u h1 h2
        exact ih (add_input t u) g1 g2
    obtain ⟨k1, k2⟩ := key ts s (by simp [hp, hs]) (by simp [hp])
    exact ⟨k2, k1⟩

/-- Witness of C10: after start-up the player's inputs are space, dot,
space, dash; the leading space is not recorded. -/
theorem space_only_after_start_witness :
    (feed [3, 2, 3, 1] (opening_sequence boot)).player_input = ['.', ' ', '-'] ∧
    (feed [3, 2, 3, 1] (opening_sequence boot)).player_input.head? ≠ some ' ' :=
  ⟨by decide,
   (space_only_after_start (opening_sequence boot) [3, 2, 3, 1]
      (RoundReset.opening boot)).2.1⟩

/-! ## Shape of the attempt in reachable states -/

theorem add_input_cases (t : Int) (s : State) :
    add_input t s = s ∨
    (s.charsEntered < 5 ∧
      (add_input t s).player_input = s.player_input ++ [input_char t] ∧
      (add_input t s).charsEntered = s.charsEntered + 1) := by
  by_cases hlt : s.charsEntered < MAX_MORSE_INPUT
  · by_cases h1 : t = 1
    · right
      refine ⟨hlt, ?_⟩
      simp only [add_input, if_pos hlt, if_pos h1, printf, input_char]
      split <;> simp
    · by_cases h2 : t = 2
      · right
        refine ⟨hlt, ?_⟩
        simp only [add_input, if_pos hlt, if_neg h1, if_pos h2, printf, input_char]
        split <;> simp
      · by_cases hs : s.input_start = false
        · right
          refine ⟨hlt, ?_⟩
          simp [add_input, if_pos hlt, if_neg h1, if_neg h2, hs, printf, input_char]
        · left
          simp [add_input, if_pos hlt, if_neg h1, if_neg h2, hs]
  · left
    simp [add_input, if_neg hlt]

theorem choose_level_cases (r : Nat) (s : State) :
    (choose_level r s).2 = s ∨
    ((choose_level r s).2.player_input = [] ∧ (choose_level r s).2.charsEntered = 0) := by
  simp only [choose_level]
  split
  · right
    split
    · simp [choose_char_round]
    · split
      · simp [choose_char_round]
      · simp
  · left; rfl

theorem check_answer_cases (r : Nat) (s : State) :
    ((check_answer r s).player_input = [] ∧ (check_answer r s).charsEntered = 0) ∨
    ((check_answer r s).player_input = s.player_input ∧
      (check_answer r s).game_is_complete = true) := by
  have hr := check_answer_report_frame s
  have hf := check_answer_score_frame (check_answer_report s)
  have hp : (check_answer_score (check_answer_report s)).player_input = s.player_input := by
    rw [hf.2.2.2.2.1, hr.2.2.2.2.2.2.2.2.1]
  simp only [check_answer, check_answer_continue]
  split
  · right
    simp [game_complete_frame, print_statistics_frame, hp]
  · split
    · simp only [next_level, printf]
      split
      · right
        simp [game_complete_frame, print_statistics_frame, hp]
      · left
        simp [choose_char_round]
    · left
      simp [choose_char_round]

theorem input_char_mem (t : Int) :
    input_char t = '.' ∨ input_char t = '-' ∨ input_char t = ' ' := by
  unfold input_char
  split_ifs <;> simp

/-- Invariant of the states reached while the game is not complete. -/
theorem live_attempt (s0 s : State) (h : Live s0 s) :
    (s.game_is_complete = false → s.charsEntered = (s.player_input.length : Int)) ∧
    s.player_input.length ≤ 5 ∧
    (∀ c ∈ s.player_input, c = '.' ∨ c = '-' ∨ c = ' ') := by
  induction h with
  | start => simp [opening_sequence, set_LED_blue, put_pixel, printf]
  | @input t s _ hc ih =>
    obtain ⟨i1, i2, i3⟩ := ih
    have i1 := i1 hc
    rcases add_input_cases t s with he | ⟨hlt, hp, hn⟩
    · rw [he]; exact ⟨fun _ => i1, i2, i3⟩
    · refine ⟨fun _ => ?_, ?_, ?_⟩
      · rw [hn, hp, i1]; simp
      · rw [hp]; simp only [List.length_append, List.length_singleton]; omega
      · intro c hcm
        rw [hp] at hcm
        rcases List.mem_append.mp hcm with hcm | hcm
        · exact i3 c hcm
        · rw [List.mem_singleton.mp hcm]; exact input_char_mem t
  | @level r s _ hc ih =>
    rcases choose_level_cases r s with he | ⟨hp, hn⟩
    · rw [he]; exact ih
    · rw [hp, hn]; simp
  | @check r s _ hc ih =>
    obtain ⟨_, i2, i3⟩ := ih
    rcases check_answer_cases r s with ⟨hp, hn⟩ | ⟨hp, hflag⟩
    · rw [hp, hn]; simp
    · rw [hp, hflag]; exact ⟨fun hx => Bool.noConfusion hx, i2, i3⟩

/-- C11: in every state reached from the state set by `opening_sequence`
through calls of `add_input`, `choose_level` and `check_answer`, each made
while the completion flag is false, the attempt `player_input` has at most
five characters and each of them is a dot, a dash or a space; while the flag
is false `charsEntered` is the length of the attempt. -/
theorem attempt_shape (s0 s : State) (h : Live s0 s) :
    s.player_input.length ≤ 5 ∧
    (∀ c ∈ s.player_input, c = '.' ∨ c = '-' ∨ c = ' ') ∧
    (s.game_is_complete = false → s.charsEntered = (s.player_input.length : Int)) :=
  ⟨(live_attempt s0 s h).2.1, (live_attempt s0 s h).2.2, (live_attempt s0 s h).1⟩

/-- Witness of C11: after start-up the player keys dot, space, dash. -/
theorem attempt_shape_witness :
    Live boot (add_input 1 (add_input 3 (add_input 2 (opening_sequence boot)))) ∧
    (add_input 1 (add_input 3 (add_input 2 (opening_sequence boot)))).player_input
      = ['.', ' ', '-'] ∧
    (add_input 1 (add_input 3 (add_input 2 (opening_sequence boot)))).player_input.length ≤ 5 :=
  ⟨Live.input 1 (Live.input 3 (Live.input 2 Live.start (by decide)) (by decide)) (by decide),
   by decide,
   (attempt_shape boot _
     (Live.input 1 (Live.input 3 (Live.input 2 Live.start (by decide)) (by decide))
       (by decide))).1⟩

/-! ## The completion flag -/

theorem check_answer_flag (r : Nat) (s : State) (h : s.game_is_complete = true) :
    (check_answer r s).game_is_complete = true := by
  have hr := check_answer_report_frame s
  have hf := check_answer_score_frame (check_answer_report s)
  have hk := check_answer_continue_frame r (check_answer_score (check_answer_report s))
  rw [check_answer, hk.2.2.2, hf.2.1, hr.2.2.2.1, h]
  split_ifs <;> rfl

theorem run_flag (c : Call) (s : State) (h : s.game_is_complete = true) :
    (run c s).game_is_complete = true := by
  cases c with
  | add_input t => simpa [run, add_input_session] using h
  | choose_level r => simpa [run, choose_level_session] using h
  | choose_char r => simpa [run, choose_char_session] using h
  | check_answer r => exact check_answer_flag r s h
  | next_level r =>
    simp only [run, (next_level_frame r s).2.2.2, h]
    split_ifs <;> rfl
  | game_complete => exact (game_complete_frame s).1

theorem run_all_flag (calls : List Call) (s : State) (h : s.game_is_complete = true) :
    (run_all calls s).game_is_complete = true := by
  induction calls generalizing s with
  | nil => exact h
  | cons c cs ih => exact ih (run c s) (run_flag c s h)

/-- C12: `game_complete` sets the completion flag, and after it no list of
calls of `add_input`, `choose_level`, `choose_char`, `check_answer`,
`next_level` and `game_complete` clears it, so `check_if_game_complete`
returns 1 after every such list; each of these calls keeps a set flag set,
`opening_sequence` puts the flag back to false, and
`check_if_game_complete` returns 0 exactly when the flag is false and 1
exactly when it is true. -/
theorem completion_flag_stays (s : State) (calls : List Call) :
    (game_complete s).game_is_complete = true ∧
    (run_all calls (game_complete s)).game_is_complete = true ∧
    check_if_game_complete (run_all calls (game_complete s)) = 1 ∧
    (∀ (c : Call) (u : State), u.game_is_complete = true →
      (run c u).game_is_complete = true) ∧
    (∀ u : State, (opening_sequence u).game_is_complete = false ∧
      check_if_game_complete (opening_sequence u) = 0) ∧
    (∀ u : State, check_if_game_complete u = 0 ↔ u.game_is_complete = false) ∧
    (∀ u : State, check_if_game_complete u = 1 ↔ u.game_is_complete = true) := by
  have hg := (game_complete_frame s).1
  have hall := run_all_flag calls (game_complete s) hg
  refine ⟨hg, hall, ?_, run_flag, ?_, ?_, ?_⟩
  · simp [check_if_game_complete, hall]
  · intro u
    simp [check_if_game_complete, opening_sequence, set_LED_blue, put_pixel, printf]
  · intro u
    cases hu : u.game_is_complete <;> simp [check_if_game_complete, hu]
  · intro u
    cases hu : u.game_is_complete <;> simp [check_if_game_complete, hu]

/-! ## Attempts outside the table -/

theorem find_letter_loop_none (a : List Char) (n i : Nat)
    (h : ∀ j, i ≤ j → j < i + n → a ≠ code_at j) : find_letter_loop a n i = none := by
  induction n generalizing i with
  | zero => rfl
  | succ n ih =>
    have hi : a ≠ code_at i := h i (Nat.le_refl i) (by omega)
    simp only [find_letter_loop, if_neg hi]
    exact ih (i + 1) (fun j h1 h2 => h j (by omega) (by omega))

theorem code_at_mem (j : Nat) (h : j < 36) : code_at j ∈ morseCode := by
  have key : ∀ k : Fin 36, code_at k.val ∈ morseCode := by decide
  exact key ⟨j, h⟩

theorem find_letter_none (a : List Char) (h : a ∉ morseCode) : find_letter a = none := by
  apply find_letter_loop_none
  intro j _ hj heq
  exact h (heq ▸ code_at_mem j (by simpa [MAX_CHARS] using hj))

theorem choose_char_required_mem (r : Nat) (s : State) :
    (choose_char r s).required_answer ∈ morseCode := by
  rw [choose_char_required]
  split_ifs
  · exact code_at_mem _ (Nat.mod_lt _ (by decide))
  · exact code_at_mem 0 (by decide)

/-- What `check_answer` does with an attempt that differs from the required
answer. -/
theorem check_answer_miss (r : Nat) (s : State) (hm : s.player_input ≠ s.required_answer) :
    (check_answer r s).incorrect_ans = s.incorrect_ans + 1 ∧
    (check_answer r s).correct_ans = s.correct_ans ∧
    (check_answer r s).current_streak = 0 ∧
    (check_answer r s).lives = s.lives - 1 ∧
    (check_answer r s).current_level = s.current_level ∧
    (s.lives - 1 = 0 →
      (check_answer r s).game_is_complete = true ∧
      (check_answer r s).num_tries = s.num_tries ∧
      (check_answer r s).player_input = s.player_input ∧
      (check_answer r s).required_answer = s.required_answer) ∧
    (s.lives - 1 ≠ 0 →
      check_answer r s = choose_char r (check_answer_score (check_answer_report s)) ∧
      (check_answer r s).game_is_complete = s.game_is_complete ∧
      (check_answer r s).num_tries = s.num_tries + 1 ∧
      (check_answer r s).player_input = [] ∧
      (check_answer r s).charsEntered = 0 ∧
      (check_answer r s).input_start = true) := by
  have hr := check_answer_report_frame s
  have hf := check_answer_score_frame (check_answer_report s)
  have hsc := check_answer_score_wrong (check_answer_report s)
    (by rw [hr.2.2.2.2.2.2.2.2.1, hr.2.2.2.2.2.2.2.1]; exact hm)
  have hl : (check_answer_score (check_answer_report s)).lives = s.lives - 1 := by
    rw [hsc.2.2.2, hr.1]
  have h5 : (check_answer_score (check_answer_report s)).current_streak ≠ 5 := by
    rw [hsc.1]; decide
  by_cases h0 : s.lives - 1 = 0
  · have hl0 : (check_answer_score (check_answer_report s)).lives = 0 := by rw [hl]; exact h0
    have he : check_answer r s =
        game_complete (print_statistics (check_answer_score (check_answer_report s))) := by
      simp [check_answer, check_answer_continue, hl0]
    rw [he]
    simp [game_complete_frame, print_statistics_frame, hsc.1, hsc.2.1, hsc.2.2.1, hl, h0,
      hf.1, hf.2.2.1, hf.2.2.2.1, hf.2.2.2.2.1, hr.2.2.1, hr.2.2.2.2.1, hr.2.2.2.2.2.1,
      hr.2.2.2.2.2.2.1, hr.2.2.2.2.2.2.2.1, hr.2.2.2.2.2.2.2.2.1]
  · have hl0 : (check_answer_score (check_answer_report s)).lives ≠ 0 := by rw [hl]; exact h0
    have he : check_answer r s = choose_char r (check_answer_score (check_answer_report s)) := by
      simp [check_answer, check_answer_continue, hl0, h5]
    rw [he]
    simp [choose_char_session, choose_char_round, hsc.1, hsc.2.1, hsc.2.2.1, hl, h0,
      hf.1, hf.2.1, hf.2.2.1, hr.2.2.1, hr.2.2.2.1, hr.2.2.2.2.1, hr.2.2.2.2.2.1,
      hr.2.2.2.2.2.2.1]

/-- C13: in a state whose required answer is an entry of the code table, as
`choose_char` always leaves it, and whose lives is between 1 and 3, an
attempt that is no entry of the table is printed with the character `?`,
differs from the required answer, and is scored as a wrong answer: one more
in `incorrect_ans`, one life less, streak 0, `correct_ans` and the level
unchanged; then the game is over when no life is left and otherwise an
ordinary new round starts.  The empty attempt and every attempt with a
space in it are no entries of the table. -/
theorem unknown_attempt_is_wrong (r : Nat) (s : State)
    (hreq : s.required_answer ∈ morseCode) (hno : s.player_input ∉ morseCode)
    (h1 : 1 ≤ s.lives) (h3 : s.lives ≤ 3) :
    check_answer_report s = printf (.typed s.player_input '?') s ∧
    s.player_input ≠ s.required_answer ∧
    ((check_answer r s).incorrect_ans = s.incorrect_ans + 1 ∧
     (check_answer r s).lives = s.lives - 1 ∧
     0 ≤ (check_answer r s).lives ∧
     (check_answer r s).current_streak = 0 ∧
     (check_answer r s).correct_ans = s.correct_ans ∧
     (check_answer r s).current_level = s.current_level) ∧
    (s.lives = 1 → (check_answer r s).game_is_complete = true) ∧
    (s.lives ≠ 1 →
      (check_answer r s).game_is_complete = s.game_is_complete ∧
      (check_answer r s).num_tries = s.num_tries + 1 ∧
      (check_answer r s).player_input = [] ∧
      (check_answer r s).charsEntered = 0 ∧
      (check_answer r s).input_start = true ∧
      (check_answer r s).required_answer ∈ morseCode) ∧
    (∀ (r0 : Nat) (s0 : State), (choose_char r0 s0).required_answer ∈ morseCode) ∧
    ([] ∉ morseCode ∧ ∀ a : List Char, ' ' ∈ a → a ∉ morseCode) := by
  have hm : s.player_input ≠ s.required_answer := fun he => hno (he ▸ hreq)
  obtain ⟨m1, m2, m3, m4, m5, m6, m7⟩ := check_answer_miss r s hm
  refine ⟨?_, hm, ⟨m1, m4, by rw [m4]; omega, m3, m2, m5⟩, ?_, ?_,
    choose_char_required_mem, by decide, ?_⟩
  · simp only [check_answer_report, find_letter_none _ hno]
  · intro hl
    exact (m6 (by omega)).1
  · intro hl
    obtain ⟨e, g1, g2, g3, g4, g5⟩ := m7 (by omega)
    refine ⟨g1, g2, g3, g4, g5, ?_⟩
    rw [e]; exact choose_char_required_mem r _
  · intro a ha hmem
    have key : ∀ c ∈ morseCode, ' ' ∉ c := by decide
    exact key a hmem ha

/-- Witness of C13: level 1 chosen after start-up, five dashes required, the
player keys dot, space, dot. -/
theorem unknown_attempt_is_wrong_witness :
    (feed [2, 3, 2]
      (choose_level 0 (feed [2, 1, 1, 1, 1] (opening_sequence boot))).2).player_input
      = ['.', ' ', '.'] ∧
    check_answer_report
      (feed [2, 3, 2] (choose_level 0 (feed [2, 1, 1, 1, 1] (opening_sequence boot))).2) =
    printf (.typed ['.', ' ', '.'] '?')
      (feed [2, 3, 2] (choose_level 0 (feed [2, 1, 1, 1, 1] (opening_sequence boot))).2) :=
  ⟨by decide,
   (unknown_attempt_is_wrong 5
      (feed [2, 3, 2] (choose_level 0 (feed [2, 1, 1, 1, 1] (opening_sequence boot))).2)
      (by decide) (by decide) (by decide) (by decide)).1⟩

/-! ## LED colours -/

/-- C14: `change_LED_colour` sends green (0x00, 0x1F, 0x00) when lives is 3,
yellow (0x1F, 0x1F, 0x00) when it is 2, orange (0x1F, 0x0F, 0x00) when it is
1, red (0x1F, 0x00, 0x00) when it is 0, and nothing for any other value;
`put_pixel` appends exactly one word to what the LED received; the four
words packed by `urgb_u32` and the blue word (0x00, 0x00, 0x1F) are pairwise
distinct, also once shifted for the LED; blue is what `opening_sequence`
sends, and what `game_complete` sends when lives is not 0. -/
theorem change_LED_colour_words (s : State) :
    ((s.lives = 3 → change_LED_colour s = put_pixel (urgb_u32 0x00 0x1F 0x00) s) ∧
     (s.lives = 2 → change_LED_colour s = put_pixel (urgb_u32 0x1F 0x1F 0x00) s) ∧
     (s.lives = 1 → change_LED_colour s = put_pixel (urgb_u32 0x1F 0x0F 0x00) s) ∧
     (s.lives = 0 → change_LED_colour s = put_pixel (urgb_u32 0x1F 0x00 0x00) s) ∧
     (s.lives ≠ 3 → s.lives ≠ 2 → s.lives ≠ 1 → s.lives ≠ 0 → change_LED_colour s = s)) ∧
    (∀ w : Nat, (put_pixel w s).pixels = s.pixels ++ [(w <<< 8) % 2 ^ 32]) ∧
    (urgb_u32 0x00 0x1F 0x00 = 0x1F0000 ∧ urgb_u32 0x1F 0x1F 0x00 = 0x1F1F00 ∧
     urgb_u32 0x1F 0x0F 0x00 = 0x0F1F00 ∧ urgb_u32 0x1F 0x00 0x00 = 0x001F00 ∧
     urgb_u32 0x00 0x00 0x1F = 0x00001F) ∧
    [urgb_u32 0x00 0x1F 0x00, urgb_u32 0x1F 0x1F 0x00, urgb_u32 0x1F 0x0F 0x00,
      urgb_u32 0x1F 0x00 0x00, urgb_u32 0x00 0x00 0x1F].Nodup ∧
    ([urgb_u32 0x00 0x1F 0x00, urgb_u32 0x1F 0x1F 0x00, urgb_u32 0x1F 0x0F 0x00,
      urgb_u32 0x1F 0x00 0x00, urgb_u32 0x00 0x00 0x1F].map
        (fun w => (w <<< 8) % 2 ^ 32)).Nodup ∧
    (opening_sequence s).pixels = s.pixels ++ [(urgb_u32 0x00 0x00 0x1F <<< 8) % 2 ^ 32] ∧
    (s.lives ≠ 0 →
      (game_complete s).pixels = s.pixels ++ [(urgb_u32 0x00 0x00 0x1F <<< 8) % 2 ^ 32]) ∧
    (s.lives = 0 → (game_complete s).pixels = s.pixels) := by
  refine ⟨⟨?_, ?_, ?_, ?_, ?_⟩, fun w => rfl, by decide, by decide, by decide, rfl, ?_, ?_⟩
  · intro h; simp [change_LED_colour, h, set_LED_green]
  · intro h; simp [change_LED_colour, h, set_LED_yellow]
  · intro h; simp [change_LED_colour, h, set_LED_orange]
  · intro h; simp [change_LED_colour, h, set_LED_red]
  · intro a b c d; simp [change_LED_colour, a, b, c, d]
  · intro h; simp [game_complete, h, set_LED_blue, put_pixel, printf]
  · intro h; simp [game_complete, h, printf]

/-- Witness of C14: with the three lives set at start-up the colour sent is
green. -/
theorem change_LED_colour_words_witness :
    (opening_sequence boot).lives = 3 ∧
    change_LED_colour (opening_sequence boot) =
      put_pixel (urgb_u32 0x00 0x1F 0x00) (opening_sequence boot) :=
  ⟨by decide, (change_LED_colour_words (opening_sequence boot)).1.1 (by decide)⟩

/-! ## Shape of the code table -/

/-- C15: the table has 36 characters and 36 Morse strings, entry by entry;
the characters are the digits `0` to `9` followed by the letters `A` to
`Z`, each once; every Morse string has between 1 and 5 characters, each a
dot or a dash. -/
theorem code_table_shape :
    alphaNumChars.length = 36 ∧ morseCode.length = 36 ∧
    (alphaNumChars.zip morseCode).length = MAX_CHARS ∧
    alphaNumChars =
      (List.range 10).map (fun i => Char.ofNat (48 + i)) ++
      (List.range 26).map (fun i => Char.ofNat (65 + i)) ∧
    alphaNumChars.Nodup ∧
    (∀ code ∈ morseCode, 1 ≤ code.length ∧ code.length ≤ 5 ∧
      ∀ c ∈ code, c = '.' ∨ c = '-') ∧
    (∀ i : Fin 36, (alphaNumChars.zip morseCode).getD i.val ('?', []) =
      (char_at i.val, code_at i.val)) := by
  refine ⟨rfl, rfl, rfl, by decide, by decide, by decide, by decide⟩

/-! ## The level -/

theorem choose_level_selected (r : Nat) (s : State) (h : (choose_level r s).1 = 1) :
    ((choose_level r s).2.current_level = 1 ∨ (choose_level r s).2.current_level = 2) ∧
    (choose_level r s).2.num_tries = s.num_tries + 1 := by
  simp only [choose_level] at h ⊢
  split at h
  · split at h
    · rw [if_pos ‹_›, if_pos ‹_›]
      simp [choose_char_session, set_LED_green, put_pixel, printf]
    · split at h
      · rw [if_pos ‹_›, if_neg ‹_›, if_pos ‹_›]
        simp [choose_char_session, set_LED_green, put_pixel, printf]
      · simp at h
  · simp at h

/-- Invariant of the game proper before its end, started from a reachable
state. -/
theorem playing_level (s0 s : State) (h : InPlay (Reachable s0) s) :
    (1 ≤ s.current_level ∧ s.current_level ≤ 3) ∧
    (s.game_is_complete = false → s.current_level ≤ 2) ∧
    (s.current_level = 3 → s.game_is_complete = true ∧ 0 < s.lives) ∧
    (0 ≤ s.lives ∧ s.lives ≤ 3 ∧ (s.game_is_complete = false → 1 ≤ s.lives)) ∧
    (0 ≤ s.current_streak ∧ s.current_streak ≤ 4) := by
  induction h with
  | @selected r p hp hret =>
    obtain ⟨b0, b3, b1, bs0, bs4⟩ := reachable_bounds s0 p hp
    have hl := (choose_level_selected r p hret).1
    have hs := choose_level_session r p
    rw [hs.1, hs.2.1, hs.2.2.1]
    refine ⟨?_, ?_, ?_, ⟨b0, b3, b1⟩, bs0, bs4⟩
    · rcases hl with hl | hl <;> rw [hl] <;> decide
    · intro _; rcases hl with hl | hl <;> simp [hl]
    · intro h3; rcases hl with hl | hl <;> (rw [hl] at h3; cases h3)
  | input t _ _ ih => simpa [add_input_session] using ih
  | @check r s _ hc ih =>
    obtain ⟨⟨l1, l3⟩, l2, _, ⟨h0, h3, h1⟩, hs0, hs4⟩ := ih
    have h1 := h1 hc
    have l2 := l2 hc
    have hf := check_answer_score_frame (check_answer_report s)
    have hr := check_answer_report_frame s
    have hk := check_answer_continue_frame r (check_answer_score (check_answer_report s))
    by_cases hm : s.player_input = s.required_answer
    · have hsc := check_answer_score_correct (check_answer_report s)
        (by rw [hr.2.2.2.2.2.2.2.2.1, hr.2.2.2.2.2.2.2.1]; exact hm)
      simp only [check_answer, hk.1, hk.2.1, hk.2.2.1, hk.2.2.2, hsc.1, hsc.2.2.2, hf.1,
        hf.2.1, hr.1, hr.2.1, hr.2.2.1, hr.2.2.2.1, hc, MAX_LIVES, MAX_LEVEL]
      split_ifs <;> simp_all
      all_goals omega
    · have hsc := check_answer_score_wrong (check_answer_report s)
        (by rw [hr.2.2.2.2.2.2.2.2.1, hr.2.2.2.2.2.2.2.1]; exact hm)
      simp only [check_answer, hk.1, hk.2.1, hk.2.2.1, hk.2.2.2, hsc.1, hsc.2.2.2, hf.1,
        hf.2.1, hr.1, hr.2.1, hr.2.2.1, hr.2.2.2.1, hc, MAX_LEVEL]
      split_ifs <;> simp_all
      all_goals omega

/-- The level while every call is made before the end of the game: in every
state reached after `choose_level` returned 1, through calls of `add_input`
and `check_answer` each made while the completion flag is false, the level
is between 1 and `MAX_LEVEL + 1`; it is at most `MAX_LEVEL` while the flag
is false; and it is `MAX_LEVEL + 1` only in a state whose flag is set and
whose lives is above 0. -/
theorem level_bounds_in_play (s0 s : State) (h : InPlay (Reachable s0) s) :
    (1 ≤ s.current_level ∧ s.current_level ≤ MAX_LEVEL + 1) ∧
    (s.game_is_complete = false → 1 ≤ s.current_level ∧ s.current_level ≤ MAX_LEVEL) ∧
    (s.current_level = MAX_LEVEL + 1 → s.game_is_complete = true ∧ 0 < s.lives) := by
  obtain ⟨⟨l1, l3⟩, l2, lw, _, _⟩ := playing_level s0 s h
  exact ⟨⟨l1, l3⟩, fun hc => ⟨l1, l2 hc⟩, lw⟩

theorem choose_level_retry (r : Nat) (s : State) (h : (choose_level r s).1 ≠ 1) :
    (choose_level r s).2.num_tries = s.num_tries := by
  simp only [choose_level] at h ⊢
  split
  · rw [if_pos ‹_›] at h
    split
    · rw [if_pos ‹_›] at h; simp at h
    · rw [if_neg ‹_›] at h
      split
      · rw [if_pos ‹_›] at h; simp at h
      · simp [printf]
  · rfl

theorem selecting_counters (s0 s : State) (h : Selecting s0 s) :
    s.num_tries = 0 ∧ s.correct_ans = 0 ∧ s.incorrect_ans = 0 := by
  induction h with
  | start => simp [opening_sequence, set_LED_blue, put_pixel, printf]
  | input t _ ih => simpa [add_input_session] using ih
  | @retry r s _ hret ih =>
    have hs := choose_level_session r s
    rw [choose_level_retry r s hret, hs.2.2.2.1, hs.2.2.2.2]
    exact ih

theorem check_answer_tries (r : Nat) (s : State)
    (h : s.num_tries = s.correct_ans + s.incorrect_ans + 1)
    (hc : (check_answer r s).game_is_complete = false) :
    (check_answer r s).num_tries =
      (check_answer r s).correct_ans + (check_answer r s).incorrect_ans + 1 := by
  have hr := check_answer_report_frame s
  have hf := check_answer_score_frame (check_answer_report s)
  have ht : (check_answer_score (check_answer_report s)).num_tries = s.num_tries := by
    rw [hf.2.2.1, hr.2.2.2.2.2.2.1]
  have hsum : (check_answer_score (check_answer_report s)).correct_ans +
      (check_answer_score (check_answer_report s)).incorrect_ans =
      s.correct_ans + s.incorrect_ans + 1 := by
    by_cases hm : s.player_input = s.required_answer
    · have hsc := check_answer_score_correct (check_answer_report s)
        (by rw [hr.2.2.2.2.2.2.2.2.1, hr.2.2.2.2.2.2.2.1]; exact hm)
      rw [hsc.2.1, hsc.2.2.1, hr.2.2.2.2.1, hr.2.2.2.2.2.1]; omega
    · have hsc := check_answer_score_wrong (check_answer_report s)
        (by rw [hr.2.2.2.2.2.2.2.2.1, hr.2.2.2.2.2.2.2.1]; exact hm)
      rw [hsc.2.1, hsc.2.2.1, hr.2.2.2.2.1, hr.2.2.2.2.2.1]; omega
  simp only [check_answer, check_answer_continue] at hc ⊢
  split
  · rw [if_pos ‹_›] at hc
    simp [game_complete_frame] at hc
  · rw [if_neg ‹_›] at hc
    split
    · rw [if_pos ‹_›] at hc
      simp only [next_level, printf] at hc ⊢
      split
      · rw [if_pos ‹_›] at hc
        simp [game_complete_frame] at hc
      · simp [choose_char_session]
    · simp only [choose_char_session]
      omega

/-- Invariant of the game proper, started from the level selection. -/
theorem playing_tries (s0 s : State) (h : Playing (Selecting s0) s)
    (hc : s.game_is_complete = false) :
    s.num_tries = s.correct_ans + s.incorrect_ans + 1 := by
  induction h with
  | @selected r p hp hret =>
    obtain ⟨t0, c0, i0⟩ := selecting_counters s0 p hp
    have hs := choose_level_session r p
    rw [(choose_level_selected r p hret).2, hs.2.2.2.1, hs.2.2.2.2, t0, c0, i0]
    rfl
  | @input t s _ ih =>
    have ha := add_input_session t s
    rw [ha.2.2.2.1] at hc
    rw [ha.2.2.2.2.2.2.1, ha.2.2.2.2.1, ha.2.2.2.2.2.1]
    exact ih hc
  | @check r s _ hflag ih => exact check_answer_tries r s (ih hflag) hc

theorem check_answer_score_console (s : State) :
    (check_answer_score s).console =
      s.console ++ [Print.verdict (decide (s.player_input = s.required_answer)),
        Print.lives_streak (check_answer_score s).lives (check_answer_score s).current_streak] := by
  simp only [check_answer_score, printf]
  split
  · split <;> simp [change_LED_colour_frame, *]
  · simp [change_LED_colour_frame, *]

theorem check_answer_report_console (s : State) :
    ∃ ch, (check_answer_report s).console = s.console ++ [Print.typed s.player_input ch] := by
  simp only [check_answer_report, printf]
  split
  · exact ⟨_, rfl⟩
  · exact ⟨_, rfl⟩

theorem check_answer_continue_stats (r : Nat) (t : State) (base mid : List Print)
    (ht : t.console = base ++ mid) (hmid : ∀ a b c, Print.statistics a b c ∉ mid) :
    (∀ a b c, Print.statistics a b c ∈ (check_answer_continue r t).console.drop base.length →
      a = t.num_tries ∧ b = t.correct_ans ∧ c = t.incorrect_ans) ∧
    (t.lives = 0 ∨ t.current_streak = 5 →
      Print.statistics t.num_tries t.correct_ans t.incorrect_ans ∈
        (check_answer_continue r t).console.drop base.length) := by
  constructor
  · intro a b c h
    simp only [check_answer_continue, print_statistics, next_level, game_complete, choose_char,
      printf, set_LED_blue, put_pixel, ht] at h
    have hm := hmid a b c
    repeat' split at h
    all_goals simp_all
  · intro h
    simp only [check_answer_continue, print_statistics, next_level, game_complete, choose_char,
      printf, set_LED_blue, put_pixel, ht]
    repeat' split
    all_goals simp_all

theorem scored_counters (s : State) :
    (check_answer_score (check_answer_report s)).num_tries = s.num_tries ∧
    (check_answer_score (check_answer_report s)).correct_ans +
      (check_answer_score (check_answer_report s)).incorrect_ans =
      s.correct_ans + s.incorrect_ans + 1 := by
  have hr := check_answer_report_frame s
  have hf := check_answer_score_frame (check_answer_report s)
  refine ⟨by rw [hf.2.2.1, hr.2.2.2.2.2.2.1], ?_⟩
  by_cases hm : s.player_input = s.required_answer
  · have hsc := check_answer_score_correct (check_answer_report s)
      (by rw [hr.2.2.2.2.2.2.2.2.1, hr.2.2.2.2.2.2.2.1]; exact hm)
    rw [hsc.2.1, hsc.2.2.1, hr.2.2.2.2.1, hr.2.2.2.2.2.1]; omega
  · have hsc := check_answer_score_wrong (check_answer_report s)
      (by rw [hr.2.2.2.2.2.2.2.2.1, hr.2.2.2.2.2.2.2.1]; exact hm)
    rw [hsc.2.1, hsc.2.2.1, hr.2.2.2.2.1, hr.2.2.2.2.2.1]; omega

/-- C20: in every state of the game proper in which the completion flag is
false, reached from `opening_sequence` through the level selection, a
successful `choose_level` and rounds of `add_input` and `check_answer`,
`num_tries = correct_ans + incorrect_ans + 1`; so every statistics line a
following `check_answer` prints shows a number of tries equal to the correct
plus the incorrect answers it shows, and such a line is printed whenever the
scored lives is 0 or the scored streak is 5. -/
theorem tries_count (s0 s : State) (r : Nat) (h : Playing (Selecting s0) s)
    (hc : s.game_is_complete = false) :
    s.num_tries = s.correct_ans + s.incorrect_ans + 1 ∧
    (∀ a b c, Print.statistics a b c ∈ (check_answer r s).console.drop s.console.length →
      a = b + c) ∧
    ((check_answer_score (check_answer_report s)).lives = 0 ∨
      (check_answer_score (check_answer_report s)).current_streak = 5 →
      ∃ a b c, Print.statistics a b c ∈ (check_answer r s).console.drop s.console.length ∧
        a = s.num_tries ∧ a = b + c) := by
  have hinv := playing_tries s0 s h hc
  obtain ⟨ht, hsum⟩ := scored_counters s
  obtain ⟨ch, hrep⟩ := check_answer_report_console s
  have hcon : (check_answer_score (check_answer_report s)).console =
      s.console ++ [Print.typed s.player_input ch,
        Print.verdict (decide ((check_answer_report s).player_input =
          (check_answer_report s).required_answer)),
        Print.lives_streak (check_answer_score (check_answer_report s)).lives
          (check_answer_score (check_answer_report s)).current_streak] := by
    rw [check_answer_score_console, hrep]; simp
  obtain ⟨k1, k2⟩ := check_answer_continue_stats r
    (check_answer_score (check_answer_report s)) s.console _ hcon (by simp)
  refine ⟨hinv, ?_, ?_⟩
  · intro a b c hmem
    obtain ⟨e1, e2, e3⟩ := k1 a b c hmem
    rw [e1, e2, e3, ht, hsum, hinv]
  · intro hcase
    exact ⟨_, _, _, k2 hcase, ht, by rw [ht, hsum, hinv]⟩

/-- Witness of C20: the state right after level 1 was chosen at start-up,
with one try counted and no answer yet. -/
theorem tries_count_witness :
    Playing (Selecting boot)
      (choose_level 0 (add_input 1 (add_input 1 (add_input 1 (add_input 1
        (add_input 2 (opening_sequence boot))))))).2 ∧
    (choose_level 0 (add_input 1 (add_input 1 (add_input 1 (add_input 1
        (add_input 2 (opening_sequence boot))))))).2.num_tries = 0 + 0 + 1 :=
  ⟨Playing.selected 0 (Selecting.input 1 (Selecting.input 1 (Selecting.input 1
      (Selecting.input 1 (Selecting.input 2 Selecting.start))))) (by decide),
   (tries_count boot _ 0
     (Playing.selected 0 (Selecting.input 1 (Selecting.input 1 (Selecting.input 1
       (Selecting.input 1 (Selecting.input 2 Selecting.start))))) (by decide))
     (by decide)).1⟩

/-! ## Press duration -/

/-- C17, as stated, fails: with the release timestamp 2147483647 and the
press timestamp -1, both of them `int` values, `calculate_duration` returns
-2147483648 and not the difference 2147483648; the press, 2147483648
microseconds long, is then classified as a dot. -/
theorem calculate_duration_wraps :
    calculate_duration 2147483647 (-1) = -2147483648 ∧
    (2147483647 : Int) - (-1) = 2147483648 ∧
    calculate_duration 2147483647 (-1) ≠ 2147483647 - (-1) ∧
    SHORT_PRESS ≤ (2147483647 : Int) - (-1) ∧
    classify_press (-1) 2147483647 = 2 := by
  decide

/-- C17, amended: `calculate_duration` returns the release timestamp minus
the press timestamp whenever that difference is in the range of `int`, and
in every case a value of that range which differs from it by a multiple of
4294967296; a computed duration strictly below the short-press threshold of
one second is classified as a dot (input 2, for which `add_input` records a
dot), a computed duration at or above the threshold as a dash (input 1,
recorded as a dash), the threshold itself included. -/
theorem press_classification (press_ts release_ts : Int) :
    (-2147483648 ≤ release_ts - press_ts → release_ts - press_ts ≤ 2147483647 →
      calculate_duration release_ts press_ts = release_ts - press_ts) ∧
    (-2147483648 ≤ calculate_duration release_ts press_ts ∧
      calculate_duration release_ts press_ts ≤ 2147483647) ∧
    (calculate_duration release_ts press_ts - (release_ts - press_ts)) % 4294967296 = 0 ∧
    (calculate_duration release_ts press_ts < SHORT_PRESS →
      classify_press press_ts release_ts = 2) ∧
    (SHORT_PRESS ≤ calculate_duration release_ts press_ts →
      classify_press press_ts release_ts = 1) ∧
    (calculate_duration release_ts press_ts = SHORT_PRESS →
      classify_press press_ts release_ts = 1) ∧
    SHORT_PRESS = 1000000 ∧ input_char 2 = '.' ∧ input_char 1 = '-' := by
  refine ⟨?_, ?_, ?_, ?_, ?_, ?_, rfl, by decide, by decide⟩
  · intro h1 h2
    simp only [calculate_duration, wrap_int]
    omega
  · simp only [calculate_duration, wrap_int]
    omega
  · simp only [calculate_duration, wrap_int]
    omega
  · intro h; simp [classify_press, h]
  · intro h; simp [classify_press, not_lt.mpr h]
  · intro h; simp [classify_press, h]

/-- Witness of the amended C17: a press from 250000 to 650000 microseconds
lasts 400000 and is a dot; a press from 250000 to 1250000 lasts exactly one
second and is a dash. -/
theorem press_classification_witness :
    calculate_duration 650000 250000 = 650000 - 250000 ∧
    classify_press 250000 650000 = 2 ∧ classify_press 250000 1250000 = 1 :=
  ⟨(press_classification 250000 650000).1 (by decide) (by decide),
   (press_classification 250000 650000).2.2.2.1 (by decide),
   (press_classification 250000 1250000).2.2.2.2.2.1 (by decide)⟩

/-! ## The attempt as a function of the inputs -/

theorem add_input_append (t : Int) (s : State) (hs : s.input_start = false)
    (hlt : s.charsEntered < 5) :
    (add_input t s).player_input = s.player_input ++ [input_char t] ∧
    (add_input t s).charsEntered = s.charsEntered + 1 ∧
    (add_input t s).input_start = false := by
  have hlt2 : s.charsEntered < MAX_MORSE_INPUT := hlt
  by_cases h1 : t = 1
  · simp [add_input, if_pos hlt2, h1, hs, printf, input_char]
  · by_cases h2 : t = 2
    · simp [add_input, if_pos hlt2, h2, hs, printf, input_char]
    · simp [add_input, if_pos hlt2, h1, h2, hs, printf, input_char]

theorem add_input_first_mark (m : Int) (s : State) (hm : m = 1 ∨ m = 2)
    (hp : s.player_input = []) (h0 : s.charsEntered = 0) (hs : s.input_start = true) :
    (add_input m s).player_input = [input_char m] ∧
    (add_input m s).charsEntered = 1 ∧
    (add_input m s).input_start = false := by
  have hlt2 : s.charsEntered < MAX_MORSE_INPUT := by rw [h0]; decide
  rcases hm with rfl | rfl
  · simp [add_input, MAX_MORSE_INPUT, hs, hp, h0, printf, input_char]
  · simp [add_input, MAX_MORSE_INPUT, hs, hp, h0, printf, input_char]

/-- Inputs keyed once the attempt has started fill it up to five
characters. -/
theorem feed_started (ts : List Int) (s : State) (hs : s.input_start = false)
    (hn : s.charsEntered = (s.player_input.length : Int)) (hle : s.player_input.length ≤ 5) :
    (feed ts s).player_input =
      s.player_input ++ (ts.map input_char).take (5 - s.player_input.length) ∧
    (feed ts s).charsEntered = ((feed ts s).player_input.length : Int) := by
  induction ts generalizing s with
  | nil => simp [feed, hn]
  | cons t ts ih =>
    by_cases h5 : s.player_input.length = 5
    · have hc : s.charsEntered = 5 := by rw [hn, h5]; rfl
      rw [feed_full (t :: ts) s hc]
      simp [h5, hn]
    · have hlt : s.charsEntered < 5 := by rw [hn]; omega
      obtain ⟨a1, a2, a3⟩ := add_input_append t s hs hlt
      have hlen : (add_input t s).player_input.length = s.player_input.length + 1 := by
        rw [a1]; simp
      have h := ih (add_input t s) a3 (by rw [a2, hlen, hn]; simp) (by rw [hlen]; omega)
      have hfeed : feed (t :: ts) s = feed ts (add_input t s) := rfl
      refine ⟨?_, by rw [hfeed]; exact h.2⟩
      have hk : 5 - s.player_input.length = (5 - (s.player_input.length + 1)) + 1 := by omega
      rw [hfeed, h.1, hlen, a1, hk, List.map_cons, List.take_succ_cons]
      simp

theorem feed_reset (ts : List Int) (s : State)
    (hp : s.player_input = []) (h0 : s.charsEntered = 0) (hs : s.input_start = true)
    (htok : ∀ t ∈ ts, t = 1 ∨ t = 2 ∨ t = 3) :
    (feed ts s).player_input =
      ((ts.dropWhile (fun t => decide (t = 3))).map input_char).take 5 ∧
    (feed ts s).charsEntered = ((feed ts s).player_input.length : Int) := by
  induction ts with
  | nil => simp [feed, hp, h0]
  | cons t ts ih =>
    have hfeed : feed (t :: ts) s = feed ts (add_input t s) := rfl
    have ht := htok t (List.mem_cons_self t ts)
    by_cases h3 : t = 3
    · have hid : add_input t s = s := by
        subst h3
        simp only [add_input, printf]
        repeat' split
        all_goals simp_all
      rw [hfeed, hid, List.dropWhile_cons_of_pos (by simpa using h3)]
      exact ih (fun x hx => htok x (List.mem_cons_of_mem t hx))
    · have hm : t = 1 ∨ t = 2 := by
        rcases ht with h | h | h
        · exact Or.inl h
        · exact Or.inr h
        · exact absurd h h3
      obtain ⟨a1, a2, a3⟩ := add_input_first_mark t s hm hp h0 hs
      have h := feed_started ts (add_input t s) a3 (by rw [a2, a1]; rfl) (by rw [a1]; simp)
      refine ⟨?_, by rw [hfeed]; exact h.2⟩
      rw [hfeed, h.1, a1, List.dropWhile_cons_of_neg (by simpa using h3)]
      simp [List.take_succ_cons]

/-- C18: from a freshly reset round (attempt empty, `charsEntered` 0,
`input_start` true), after any list of inputs 1 (dash), 2 (dot) and 3
(space) given one at a time to `add_input`, the attempt is the first five
characters of the list's characters once its leading spaces are removed,
and `charsEntered` is the length of the attempt. -/
theorem attempt_of_inputs (ts : List Int) (s : State)
    (hp : s.player_input = []) (h0 : s.charsEntered = 0) (hs : s.input_start = true)
    (htok : ∀ t ∈ ts, t = 1 ∨ t = 2 ∨ t = 3) :
    (feed ts s).player_input =
      ((ts.dropWhile (fun t => decide (t = 3))).map input_char).take 5 ∧
    (feed ts s).charsEntered = ((feed ts s).player_input.length : Int) ∧
    (input_char 1 = '-' ∧ input_char 2 = '.' ∧ input_char 3 = ' ') :=
  ⟨(feed_reset ts s hp h0 hs htok).1, (feed_reset ts s hp h0 hs htok).2,
    by decide, by decide, by decide⟩

/-- Witness of C18: after start-up the inputs space, space, dot, space,
dash, dash, dash, dash leave the attempt dot, space and three dashes. -/
theorem attempt_of_inputs_witness :
    (feed [3, 3, 2, 3, 1, 1, 1, 1] (opening_sequence boot)).player_input =
      ['.', ' ', '-', '-', '-'] ∧
    (feed [3, 3, 2, 3, 1, 1, 1, 1] (opening_sequence boot)).charsEntered = 5 :=
  ⟨(attempt_of_inputs [3, 3, 2, 3, 1, 1, 1, 1] (opening_sequence boot)
      (by decide) (by decide) (by decide) (by decide)).1,
   by decide⟩

/-! ## `charsEntered` and the length of the attempt -/

/-- The functions that keep `charsEntered` equal to the length of the
attempt: all of them, except that `next_level` and `check_answer` need the
game not to end by the completion of the last level. -/
theorem chars_entered_kept (s : State) (r : Nat) (t : Int)
    (h : s.charsEntered = (s.player_input.length : Int)) :
    (opening_sequence s).charsEntered = ((opening_sequence s).player_input.length : Int) ∧
    (choose_char r s).charsEntered = ((choose_char r s).player_input.length : Int) ∧
    (choose_level r s).2.charsEntered = ((choose_level r s).2.player_input.length : Int) ∧
    (add_input t s).charsEntered = ((add_input t s).player_input.length : Int) ∧
    (game_complete s).charsEntered = ((game_complete s).player_input.length : Int) ∧
    (s.current_level + 1 ≤ MAX_LEVEL →
      (next_level r s).charsEntered = ((next_level r s).player_input.length : Int)) ∧
    ((check_answer r s).game_is_complete = false ∨ (check_answer r s).lives = 0 →
      (check_answer r s).charsEntered = ((check_answer r s).player_input.length : Int)) := by
  refine ⟨?_, ?_, ?_, ?_, ?_, ?_, ?_⟩
  · simp [opening_sequence, set_LED_blue, put_pixel, printf]
  · simp [choose_char_round]
  · rcases choose_level_cases r s with he | ⟨hp, hn⟩
    · rw [he]; exact h
    · rw [hp, hn]; rfl
  · rcases add_input_cases t s with he | ⟨_, hp, hn⟩
    · rw [he]; exact h
    · rw [hp, hn, h]; simp
  · simpa [game_complete_frame] using h
  · intro hle
    have hn := next_level_round r s hle
    rw [hn.1, hn.2.1]; rfl
  · intro hcase
    have hr := check_answer_report_frame s
    have hf := check_answer_score_frame (check_answer_report s)
    have hk := check_answer_continue_frame r (check_answer_score (check_answer_report s))
    by_cases h0 : (check_answer_score (check_answer_report s)).lives = 0
    · have he : check_answer r s =
          game_complete (print_statistics (check_answer_score (check_answer_report s))) := by
        simp [check_answer, check_answer_continue, h0]
      rw [he]
      simpa [game_complete_frame, print_statistics_frame, hf.2.2.2.2.1, hf.2.2.2.2.2.1,
        hr.2.2.2.2.2.2.2.2.1, hr.2.2.2.2.2.2.2.2.2.1] using h
    · rcases check_answer_cases r s with ⟨hp, hn⟩ | ⟨_, hflag⟩
      · rw [hp, hn]; rfl
      · rcases hcase with hc | hc
        · rw [hflag] at hc; cases hc
        · rw [check_answer, hk.1] at hc; exact absurd hc h0

set_option maxRecDepth 20000 in
/-- C19, the code at the failing input: level 2 is chosen at start-up and
the letter `E`, one dot, is drawn every time; four rounds are answered with
the dot and the player keys the dot of the fifth, so `charsEntered` is 1,
the length of the attempt.  `check_answer` then completes the game through
`next_level`, which puts `charsEntered` to 0 and leaves the dot in the
attempt; `next_level` called on that state does the same; and five more
inputs all pass the cap test and make an attempt of six characters. -/
theorem game_complete_stale_attempt :
    (feed [2] (play_rounds [([2], 14), ([2], 14), ([2], 14), ([2], 14)]
      (choose_level 14 (feed [2, 2, 1, 1, 1] (opening_sequence boot))).2)).charsEntered = 1 ∧
    (feed [2] (play_rounds [([2], 14), ([2], 14), ([2], 14), ([2], 14)]
      (choose_level 14 (feed [2, 2, 1, 1, 1] (opening_sequence boot))).2)).player_input
      = ['.'] ∧
    (check_answer 14 (feed [2]
      (play_rounds [([2], 14), ([2], 14), ([2], 14), ([2], 14)]
      (choose_level 14 (feed [2, 2, 1, 1, 1] (opening_sequence boot))).2))).game_is_complete
      = true ∧
    (check_answer 14 (feed [2]
      (play_rounds [([2], 14), ([2], 14), ([2], 14), ([2], 14)]
      (choose_level 14 (feed [2, 2, 1, 1, 1] (opening_sequence boot))).2))).charsEntered = 0 ∧
    (check_answer 14 (feed [2]
      (play_rounds [([2], 14), ([2], 14), ([2], 14), ([2], 14)]
      (choose_level 14 (feed [2, 2, 1, 1, 1] (opening_sequence boot))).2))).player_input
      = ['.'] ∧
    (next_level 14 (feed [2]
      (play_rounds [([2], 14), ([2], 14), ([2], 14), ([2], 14)]
      (choose_level 14 (feed [2, 2, 1, 1, 1] (opening_sequence boot))).2))).charsEntered = 0 ∧
    (next_level 14 (feed [2]
      (play_rounds [([2], 14), ([2], 14), ([2], 14), ([2], 14)]
      (choose_level 14 (feed [2, 2, 1, 1, 1] (opening_sequence boot))).2))).player_input
      = ['.'] ∧
    (feed [1, 1, 1, 1, 1] (check_answer 14 (feed [2]
      (play_rounds [([2], 14), ([2], 14), ([2], 14), ([2], 14)]
      (choose_level 14 (feed [2, 2, 1, 1, 1] (opening_sequence boot))).2)))).player_input
      = ['.', '-', '-', '-', '-', '-'] :=
  ⟨by decide, by decide, by decide, by decide, by decide, by decide, by decide, by decide⟩

end Morse
